import Mathlib

/-!
# step-asg-deployer: resource lookup and validation

A shallow embedding of the tag lookups (`aws/aws.go`), the target-group finder
(`aws/alb/target_group.go`), the resource validators
(`deployer/models/service_resources.go`) and the halt of a release
(`deployer/client/halt.go`).

Conventions of the embedding:

* a Go pointer `*T` is an `Option T`; `nil` is `none`;
* dereferencing a nil pointer is the outcome `Go.panic`;
* a Go `error` is an `Option GoError`, `nil` being `none`; an error built by
  `fmt.Errorf` records the format string and its operands;
* a slice `[]*T` is a `List (Option T)`, a nil slice the empty list;
* a call to the provider, or to another collaborator, takes the state it finds
  and returns the state it leaves, so that the calls made can be read off the
  state: a function that ends in the state one call left has made no call
  after it.
-/

set_option autoImplicit false

namespace StepAsgDeployer

/-! ## Go runtime -/

/-- Outcome of running a Go function: it returns a value, or it panics
(here always a nil-pointer dereference). -/
inductive Go (α : Type) where
  | ret (a : α)
  | panic
  deriving DecidableEq

namespace Go

/-- Sequencing: a panic aborts everything that follows. -/
def bind {α β : Type} (x : Go α) (f : α → Go β) : Go β :=
  match x with
  | ret a => f a
  | panic => panic

instance : Monad Go where
  pure := ret
  bind := bind

/-- The dereference `*p`. -/
def deref {α : Type} (p : Option α) : Go α :=
  match p with
  | some a => ret a
  | none => panic

end Go

/-- An operand handed to `fmt.Errorf`. -/
inductive FmtArg where
  /-- A string value, such as `*im.ImageID` or a literal. -/
  | str (s : String)
  /-- The operand `to.Strs(p)` for a string pointer `p`. -/
  | strs (p : Option String)
  /-- The operand `to.StrSlice(l)` for a slice of string pointers `l`. -/
  | strSlice (l : List (Option String))
  deriving DecidableEq

/-- A non-nil Go `error` made by `fmt.Errorf(format, args...)`. -/
structure GoError where
  format : String
  args : List FmtArg
  deriving DecidableEq

/-- The Go interface type `error`; `none` is `nil`. -/
abbrev error := Option GoError

/-- The call `fmt.Errorf(format, args...)`: a non-nil error. -/
def Errorf (format : String) (args : List FmtArg) : error :=
  some { format := format, args := args }

/-! ## AWS SDK records (the fields the code reads) -/

namespace ec2

/-- The SDK record `ec2.Tag`. -/
structure Tag where
  Key : Option String
  Value : Option String
  deriving DecidableEq

end ec2

namespace elb

/-- The SDK record `elb.Tag`. -/
structure Tag where
  Key : Option String
  Value : Option String
  deriving DecidableEq

end elb

namespace elbv2

/-- The SDK record `elbv2.Tag`. -/
structure Tag where
  Key : Option String
  Value : Option String
  deriving DecidableEq

/-- The SDK record `elbv2.TargetGroup`. -/
structure TargetGroup where
  TargetGroupName : Option String
  TargetGroupArn : Option String
  deriving DecidableEq

/-- The SDK record `elbv2.DescribeTargetGroupsInput`. -/
structure DescribeTargetGroupsInput where
  Names : List (Option String)
  deriving DecidableEq

/-- The SDK record `elbv2.DescribeTargetGroupsOutput`. -/
structure DescribeTargetGroupsOutput where
  TargetGroups : List (Option TargetGroup)
  deriving DecidableEq

/-- The SDK record `elbv2.TagDescription`. -/
structure TagDescription where
  ResourceArn : Option String
  Tags : List (Option Tag)
  deriving DecidableEq

/-- The SDK record `elbv2.DescribeTagsInput`. -/
structure DescribeTagsInput where
  ResourceArns : List (Option String)
  deriving DecidableEq

/-- The SDK record `elbv2.DescribeTagsOutput`. -/
structure DescribeTagsOutput where
  TagDescriptions : List (Option TagDescription)
  deriving DecidableEq

/-- The SDK record `elbv2.TargetDescription`. -/
structure TargetDescription where
  Id : Option String
  deriving DecidableEq

/-- The SDK record `elbv2.TargetHealth`. -/
structure TargetHealth where
  State : Option String
  deriving DecidableEq

/-- The SDK record `elbv2.TargetHealthDescription`. -/
structure TargetHealthDescription where
  Target : Option TargetDescription
  TargetHealth : Option TargetHealth
  deriving DecidableEq

/-- The SDK record `elbv2.DescribeTargetHealthInput`. -/
structure DescribeTargetHealthInput where
  TargetGroupArn : Option String
  Targets : List (Option TargetDescription)
  deriving DecidableEq

/-- The SDK record `elbv2.DescribeTargetHealthOutput`. -/
structure DescribeTargetHealthOutput where
  TargetHealthDescriptions : List (Option TargetHealthDescription)
  deriving DecidableEq

end elbv2

namespace autoscaling

/-- The SDK record `autoscaling.TagDescription`. -/
structure TagDescription where
  Key : Option String
  PropagateAtLaunch : Option Bool
  ResourceId : Option String
  ResourceType : Option String
  Value : Option String
  deriving DecidableEq

end autoscaling

/-! ## Package `aws` (`aws/aws.go`) -/

namespace aws

/-- The loop of `FetchEc2Tag`, entered once `tagKey` is known to be non-nil. -/
def FetchEc2Tag.loop (tagKey : String) : List (Option ec2.Tag) → Go (Option String)
  | [] => Go.ret none
  | none :: _ => Go.panic
  | some tag :: rest =>
    match tag.Key with
    | none => FetchEc2Tag.loop tagKey rest
    | some key => if key = tagKey then Go.ret tag.Value else FetchEc2Tag.loop tagKey rest

/-- The function `FetchEc2Tag` of `aws/aws.go`. -/
def FetchEc2Tag (tags : List (Option ec2.Tag)) (tagKey : Option String) : Go (Option String) :=
  match tagKey with
  | none => Go.ret none
  | some k => FetchEc2Tag.loop k tags

/-- The loop of `FetchELBTag`, entered once `tagKey` is known to be non-nil. -/
def FetchELBTag.loop (tagKey : String) : List (Option elb.Tag) → Go (Option String)
  | [] => Go.ret none
  | none :: _ => Go.panic
  | some tag :: rest =>
    match tag.Key with
    | none => FetchELBTag.loop tagKey rest
    | some key => if key = tagKey then Go.ret tag.Value else FetchELBTag.loop tagKey rest

/-- The function `FetchELBTag` of `aws/aws.go`. -/
def FetchELBTag (tags : List (Option elb.Tag)) (tagKey : Option String) : Go (Option String) :=
  match tagKey with
  | none => Go.ret none
  | some k => FetchELBTag.loop k tags

/-- The loop of `FetchELBV2Tag`, entered once `tagKey` is known to be non-nil. -/
def FetchELBV2Tag.loop (tagKey : String) : List (Option elbv2.Tag) → Go (Option String)
  | [] => Go.ret none
  | none :: _ => Go.panic
  | some tag :: rest =>
    match tag.Key with
    | none => FetchELBV2Tag.loop tagKey rest
    | some key => if key = tagKey then Go.ret tag.Value else FetchELBV2Tag.loop tagKey rest

/-- The function `FetchELBV2Tag` of `aws/aws.go`. -/
def FetchELBV2Tag (tags : List (Option elbv2.Tag)) (tagKey : Option String) : Go (Option String) :=
  match tagKey with
  | none => Go.ret none
  | some k => FetchELBV2Tag.loop k tags

/-- The loop of `FetchASGTag`, entered once `tagKey` is known to be non-nil. -/
def FetchASGTag.loop (tagKey : String) :
    List (Option autoscaling.TagDescription) → Go (Option String)
  | [] => Go.ret none
  | none :: _ => Go.panic
  | some tag :: rest =>
    match tag.Key with
    | none => FetchASGTag.loop tagKey rest
    | some key => if key = tagKey then Go.ret tag.Value else FetchASGTag.loop tagKey rest

/-- The function `FetchASGTag` of `aws/aws.go`. -/
def FetchASGTag (tags : List (Option autoscaling.TagDescription)) (tagKey : Option String) :
    Go (Option String) :=
  match tagKey with
  | none => Go.ret none
  | some k => FetchASGTag.loop k tags

/-- The anonymous interface with the one method `ProjectName() *string`. -/
class ProjectNamer (ρ : Type) where
  ProjectName : ρ → Option String

/-- The anonymous interface with the one method `ConfigName() *string`. -/
class ConfigNamer (ρ : Type) where
  ConfigName : ρ → Option String

/-- The anonymous interface with the one method `ServiceName() *string`. -/
class ServiceNamer (ρ : Type) where
  ServiceName : ρ → Option String

/-- The anonymous interface with the one method `ReleaseID() *string`. -/
class ReleaseIDer (ρ : Type) where
  ReleaseID : ρ → Option String

/-- The function `HasProjectName` of `aws/aws.go`. -/
def HasProjectName {ρ : Type} [ProjectNamer ρ] (r : ρ) (projectName : Option String) : Bool :=
  match ProjectNamer.ProjectName r, projectName with
  | some a, some b => decide (a = b)
  | _, _ => false

/-- The function `HasConfigName` of `aws/aws.go`. -/
def HasConfigName {ρ : Type} [ConfigNamer ρ] (r : ρ) (configName : Option String) : Bool :=
  match ConfigNamer.ConfigName r, configName with
  | some a, some b => decide (a = b)
  | _, _ => false

/-- The function `HasServiceName` of `aws/aws.go`. -/
def HasServiceName {ρ : Type} [ServiceNamer ρ] (r : ρ) (serviceName : Option String) : Bool :=
  match ServiceNamer.ServiceName r, serviceName with
  | some a, some b => decide (a = b)
  | _, _ => false

/-- The function `HasReleaseID` of `aws/aws.go`. -/
def HasReleaseID {ρ : Type} [ReleaseIDer ρ] (r : ρ) (releaseID : Option String) : Bool :=
  match ReleaseIDer.ReleaseID r, releaseID with
  | some a, some b => decide (a = b)
  | _, _ => false

/-- The interface `ALBAPI`, restricted to the three calls package `alb` makes.
A call reads and may change the provider state `σ`; it returns the SDK output
pointer and an error. -/
structure ALBAPI (σ : Type) where
  DescribeTargetGroups : elbv2.DescribeTargetGroupsInput → σ →
    (Option elbv2.DescribeTargetGroupsOutput × error) × σ
  DescribeTags : elbv2.DescribeTagsInput → σ →
    (Option elbv2.DescribeTagsOutput × error) × σ
  DescribeTargetHealth : elbv2.DescribeTargetHealthInput → σ →
    (Option elbv2.DescribeTargetHealthOutput × error) × σ

/-- The map type `aws.Instances` as package `alb` uses it. Its declaration is
missing, so the two operations `GetInstances` performs are taken as they come:
the literal `aws.Instances{}` and the method `AddTargetGroupInstance`, which
updates the map in place (here: returns the updated map) or panics. -/
structure InstancesOps (ι : Type) where
  empty : ι
  AddTargetGroupInstance : ι → Option elbv2.TargetHealthDescription → Go ι

end aws

/-! ## Resource packages

Of the packages `ami`, `iam`, `asg`, `sg`, `elb` and `subnet` only the uses in
`service_resources.go` are among the sources; package `alb` is. -/

namespace ami

/-- Modelled from the spec: the declaration of `ami.Image` is missing; these
are the two fields `service_resources.go` reads, the identifier and the
"managed by this system" convention tag. -/
structure Image where
  ImageID : Option String
  DeployWithTag : Option String
  deriving DecidableEq

end ami

namespace iam

/-- Modelled from the spec: the declaration of `iam.Profile` is missing; these
are the two fields `service_resources.go` reads, the identifier and the
hierarchical path. -/
structure Profile where
  Arn : Option String
  Path : Option String
  deriving DecidableEq

end iam

namespace asg

/-- Modelled from the spec: the declaration of `asg.ASG` is missing; it carries
an identifier and the four identity tags, and its accessors `ProjectName()`,
`ConfigName()`, `ServiceName()` and `ReleaseID()` return the tags, as those of
`alb.TargetGroup` do. -/
structure ASG where
  AutoScalingGroupName : Option String
  ProjectNameTag : Option String
  ConfigNameTag : Option String
  ServiceNameTag : Option String
  ReleaseIDTag : Option String
  deriving DecidableEq

instance : aws.ProjectNamer ASG := ⟨fun s => s.ProjectNameTag⟩
instance : aws.ConfigNamer ASG := ⟨fun s => s.ConfigNameTag⟩
instance : aws.ServiceNamer ASG := ⟨fun s => s.ServiceNameTag⟩
instance : aws.ReleaseIDer ASG := ⟨fun s => s.ReleaseIDTag⟩

/-- Modelled from the spec: `ForProjectConfigNOTReleaseID` is missing from the
sources, only its test is there. It returns "all scaling groups matching
project+config but a *different* release", here out of the scaling groups
`groups` the provider holds, a group matching by the identity predicates of
package `aws`. -/
def ForProjectConfigNOTReleaseID (groups : List ASG)
    (projectName configName releaseID : Option String) : List ASG :=
  groups.filter (fun g =>
    aws.HasProjectName g projectName && aws.HasConfigName g configName &&
      !aws.HasReleaseID g releaseID)

/-- Modelled from the spec: the loop of `ForProjectConfigNotReleaseIDServiceMap`,
which is missing from the sources. The groups are entered one by one in a map
"keyed by `ServiceName`"; the function "fails with `DuplicatePrevious` if two
scaling groups map to the same `ServiceName` key", and then "the caller
receives an error, never a best-effort map". The map is kept as the list of
its entries, in the order they were entered. -/
def ForProjectConfigNotReleaseIDServiceMap.loop :
    List ASG → List (String × ASG) → Go (Option (List (String × ASG)) × error)
  | [], asgMap => Go.ret (some asgMap, none)
  | g :: rest, asgMap => do
    let name ← Go.deref g.ServiceNameTag
    if asgMap.any (fun entry => decide (entry.1 = name)) then
      pure (none, Errorf "DuplicatePrevious: two scaling groups of service %v" [FmtArg.str name])
    else
      ForProjectConfigNotReleaseIDServiceMap.loop rest (asgMap ++ [(name, g)])

/-- Modelled from the spec: `ForProjectConfigNotReleaseIDServiceMap`, missing
from the sources: "same as above, but keyed by `ServiceName`". -/
def ForProjectConfigNotReleaseIDServiceMap (groups : List ASG)
    (projectName configName releaseID : Option String) :
    Go (Option (List (String × ASG)) × error) :=
  ForProjectConfigNotReleaseIDServiceMap.loop
    (ForProjectConfigNOTReleaseID groups projectName configName releaseID) []

end asg

namespace sg

/-- Modelled from the spec: the declaration of `sg.SecurityGroup` is missing;
it carries an identifier and the three identity tags, returned by its
accessors. -/
structure SecurityGroup where
  GroupID : Option String
  ProjectNameTag : Option String
  ConfigNameTag : Option String
  ServiceNameTag : Option String
  deriving DecidableEq

instance : aws.ProjectNamer SecurityGroup := ⟨fun s => s.ProjectNameTag⟩
instance : aws.ConfigNamer SecurityGroup := ⟨fun s => s.ConfigNameTag⟩
instance : aws.ServiceNamer SecurityGroup := ⟨fun s => s.ServiceNameTag⟩

end sg

namespace elb

/-- Modelled from the spec: the declaration of the repository's
`elb.LoadBalancer` is missing; it carries an identifier and the three identity
tags, returned by its accessors. -/
structure LoadBalancer where
  LoadBalancerName : Option String
  ProjectNameTag : Option String
  ConfigNameTag : Option String
  ServiceNameTag : Option String
  deriving DecidableEq

instance : aws.ProjectNamer LoadBalancer := ⟨fun s => s.ProjectNameTag⟩
instance : aws.ConfigNamer LoadBalancer := ⟨fun s => s.ConfigNameTag⟩
instance : aws.ServiceNamer LoadBalancer := ⟨fun s => s.ServiceNameTag⟩

end elb

namespace subnet

/-- Modelled from the spec: the declaration of `subnet.Subnet` is missing;
these are the two fields `service_resources.go` reads, the identifier and the
"managed by this system" convention tag. -/
structure Subnet where
  SubnetID : Option String
  DeployWithTag : Option String
  deriving DecidableEq

end subnet

/-! ## Package `alb` (`aws/alb/target_group.go`) -/

namespace alb

/-- The struct `TargetGroup` of `aws/alb/target_group.go`. -/
structure TargetGroup where
  ProjectNameTag : Option String
  ConfigNameTag : Option String
  ServiceNameTag : Option String
  TargetGroupArn : Option String
  deriving DecidableEq

/-- The method `ProjectName`. -/
def TargetGroup.ProjectName (s : TargetGroup) : Option String := s.ProjectNameTag

/-- The method `ConfigName`. -/
def TargetGroup.ConfigName (s : TargetGroup) : Option String := s.ConfigNameTag

/-- The method `ServiceName`. -/
def TargetGroup.ServiceName (s : TargetGroup) : Option String := s.ServiceNameTag

instance : aws.ProjectNamer TargetGroup := ⟨TargetGroup.ProjectName⟩
instance : aws.ConfigNamer TargetGroup := ⟨TargetGroup.ConfigName⟩
instance : aws.ServiceNamer TargetGroup := ⟨TargetGroup.ServiceName⟩

/-- The function `findByName` of `aws/alb/target_group.go`. The result pairs
the returned pointer with the returned error; the provider state after the
call comes with it. -/
def findByName {σ : Type} (alb : aws.ALBAPI σ) (targetGroupName : Option String) (s : σ) :
    Go ((Option elbv2.TargetGroup × error) × σ) :=
  match alb.DescribeTargetGroups { Names := [targetGroupName] } s with
  | ((_, some err), s1) => Go.ret ((none, some err), s1)
  | ((elbsOutput, none), s1) => do
    let out ← Go.deref elbsOutput
    match out.TargetGroups with
    | [tg0] => do
      let first ← Go.deref tg0
      let name ← Go.deref first.TargetGroupName
      let wanted ← Go.deref targetGroupName
      if name ≠ wanted then
        pure ((none, Errorf "LoadBalancer Not Found" []), s1)
      else
        pure ((tg0, none), s1)
    | _ => pure ((none, Errorf "LoadBalancer Not Found" []), s1)

/-- The function `findTagsByName` of `aws/alb/target_group.go`. A nil slice is
the empty list. -/
def findTagsByName {σ : Type} (alb : aws.ALBAPI σ) (targetGroupARN : Option String) (s : σ) :
    Go ((List (Option elbv2.Tag) × error) × σ) :=
  match alb.DescribeTags { ResourceArns := [targetGroupARN] } s with
  | ((_, some err), s1) => Go.ret (([], some err), s1)
  | ((tagsOutput, none), s1) => do
    let out ← Go.deref tagsOutput
    match out.TagDescriptions with
    | [td0] => do
      let first ← Go.deref td0
      let arn ← Go.deref first.ResourceArn
      let wanted ← Go.deref targetGroupARN
      if arn ≠ wanted then
        pure (([], Errorf "TargetGroup Not Found" []), s1)
      else
        pure ((first.Tags, none), s1)
    | _ => pure (([], Errorf "TargetGroup Not Found" []), s1)

/-- The function `find` of `aws/alb/target_group.go`; `to.Strp(k)` is a
pointer to the string `k`. -/
def find {σ : Type} (alb : aws.ALBAPI σ) (targetGroupName : Option String) (s : σ) :
    Go ((Option TargetGroup × error) × σ) := do
  let ((awsTarget, err), s1) ← findByName alb targetGroupName s
  match err with
  | some e => pure ((none, some e), s1)
  | none => do
    let target ← Go.deref awsTarget
    let ((awsTags, err), s2) ← findTagsByName alb target.TargetGroupArn s1
    match err with
    | some e => pure ((none, some e), s2)
    | none => do
      let projectName ← aws.FetchELBV2Tag awsTags (some "ProjectName")
      let configName ← aws.FetchELBV2Tag awsTags (some "ConfigName")
      let serviceName ← aws.FetchELBV2Tag awsTags (some "ServiceName")
      pure ((some { ProjectNameTag := projectName
                    ConfigNameTag := configName
                    ServiceNameTag := serviceName
                    TargetGroupArn := target.TargetGroupArn }, none), s2)

/-- The loop of `FindAll`: `tgs` holds the target groups appended so far. -/
def FindAll.loop {σ : Type} (albc : aws.ALBAPI σ) :
    List (Option String) → List (Option TargetGroup) → σ →
      Go ((List (Option TargetGroup) × error) × σ)
  | [], tgs, s => Go.ret ((tgs, none), s)
  | name :: rest, tgs, s => do
    let ((tg, err), s1) ← find albc name s
    match err with
    | some e => pure (([], some e), s1)
    | none => FindAll.loop albc rest (tgs ++ [tg]) s1

/-- The function `FindAll` of `aws/alb/target_group.go`. -/
def FindAll {σ : Type} (albc : aws.ALBAPI σ) (names : List (Option String)) (s : σ) :
    Go ((List (Option TargetGroup) × error) × σ) :=
  FindAll.loop albc names [] s

/-- The loop of `createDescribeTargetHealthInput`: `awsInstances` holds the
targets appended so far. -/
def createDescribeTargetHealthInput.loop :
    List String → List (Option elbv2.TargetDescription) → List (Option elbv2.TargetDescription)
  | [], awsInstances => awsInstances
  | id :: rest, awsInstances =>
    createDescribeTargetHealthInput.loop rest (awsInstances ++ [some { Id := some id }])

/-- The function `createDescribeTargetHealthInput`. -/
def createDescribeTargetHealthInput (arn : Option String) (instances : List String) :
    elbv2.DescribeTargetHealthInput :=
  { TargetGroupArn := arn
    Targets := createDescribeTargetHealthInput.loop instances [] }

/-- The loop of `GetInstances` over the health descriptions. -/
def GetInstances.loop {ι : Type} (ops : aws.InstancesOps ι) :
    List (Option elbv2.TargetHealthDescription) → ι → Go ι
  | [], tgInstances => Go.ret tgInstances
  | thd :: rest, tgInstances => do
    let updated ← ops.AddTargetGroupInstance tgInstances thd
    GetInstances.loop ops rest updated

/-- The function `GetInstances` of `aws/alb/target_group.go`. The returned map
is `none` when the function returns nil. -/
def GetInstances {σ ι : Type} (ops : aws.InstancesOps ι) (albc : aws.ALBAPI σ)
    (arn : Option String) (instances : List String) (s : σ) :
    Go ((Option ι × error) × σ) :=
  match albc.DescribeTargetHealth (createDescribeTargetHealthInput arn instances) s with
  | ((_, some err), s1) => Go.ret ((none, some err), s1)
  | ((healthOutput, none), s1) => do
    let out ← Go.deref healthOutput
    let tgInstances ← GetInstances.loop ops out.TargetHealthDescriptions ops.empty
    pure ((some tgInstances, none), s1)

end alb

/-! ## Package `models` (`deployer/models/service_resources.go`) -/

namespace is

/-- Modelled from the spec: `is.EmptyStr` belongs to the library
`coinbase/step`; an identifier is empty when it is absent or the empty
string. -/
def EmptyStr (s : Option String) : Bool :=
  match s with
  | none => true
  | some v => decide (v = "")

end is

namespace models

/-- Modelled from the spec: the declaration of `Service` is missing; this is
the release descriptor as `service_resources.go` reads it: the four identity
accessors of `serviceIface` and the declared lists of security groups, load
balancers, target groups and subnets (the last through `Subnets()`). -/
structure Service where
  ProjectName : Option String
  ConfigName : Option String
  Name : Option String
  ReleaseID : Option String
  SecurityGroups : List (Option String)
  ELBs : List (Option String)
  TargetGroups : List (Option String)
  Subnets : List (Option String)
  deriving DecidableEq

/-- The struct `ServiceResources`. -/
structure ServiceResources where
  Image : Option ami.Image
  Profile : Option iam.Profile
  PrevASG : Option asg.ASG
  SecurityGroups : List (Option sg.SecurityGroup)
  ELBs : List (Option elb.LoadBalancer)
  TargetGroups : List (Option alb.TargetGroup)
  Subnets : List (Option subnet.Subnet)
  deriving DecidableEq

/-- The struct `ServiceResourceNames`. -/
structure ServiceResourceNames where
  Image : Option String
  Profile : Option String
  PrevASG : Option String
  SecurityGroups : List (Option String)
  ELBs : List (Option String)
  TargetGroups : List (Option String)
  Subnets : List (Option String)
  deriving DecidableEq

/-- One loop of `ToServiceResourceNames`: the identifiers `ident r` of the
resources `r` that are neither nil nor without an identifier, appended in
order. -/
def collectNames {ρ : Type} (ident : ρ → Option String) :
    List (Option ρ) → List (Option String)
  | [] => []
  | none :: rest => collectNames ident rest
  | some r :: rest =>
    if is.EmptyStr (ident r) then collectNames ident rest
    else ident r :: collectNames ident rest

/-- The method `ToServiceResourceNames`. -/
def ServiceResources.ToServiceResourceNames (sr : ServiceResources) : ServiceResourceNames :=
  { Image := match sr.Image with
      | some im => im.ImageID
      | none => none
    Profile := match sr.Profile with
      | some profile => profile.Arn
      | none => none
    PrevASG := match sr.PrevASG with
      | some prev => prev.AutoScalingGroupName
      | none => none
    SecurityGroups := collectNames (fun g => g.GroupID) sr.SecurityGroups
    ELBs := collectNames (fun l => l.LoadBalancerName) sr.ELBs
    TargetGroups := collectNames (fun t => t.TargetGroupArn) sr.TargetGroups
    Subnets := collectNames (fun n => n.SubnetID) sr.Subnets }

/-- The method `validateAttributes`. -/
def ServiceResources.validateAttributes (sr : ServiceResources) (service : Service) : Go error :=
  let names := sr.ToServiceResourceNames
  if sr.Image = none then
    pure (Errorf "Image is nil" [])
  else if service.SecurityGroups.length ≠ sr.SecurityGroups.length then
    pure (Errorf "Security Group Not Found actual %v expected %v"
      [FmtArg.strSlice names.SecurityGroups, FmtArg.strSlice service.SecurityGroups])
  else if service.ELBs.length ≠ sr.ELBs.length then
    pure (Errorf "ELB Not Found actual %v expected %v"
      [FmtArg.strSlice names.ELBs, FmtArg.strSlice service.ELBs])
  else if service.TargetGroups.length ≠ sr.TargetGroups.length then
    pure (Errorf "TargetGroup Not Found actual %v expected %v"
      [FmtArg.strSlice names.TargetGroups, FmtArg.strSlice service.TargetGroups])
  else if service.Subnets.length ≠ sr.Subnets.length then
    pure (Errorf "Subnets Not Found actual %v expected %v"
      [FmtArg.strSlice names.Subnets, FmtArg.strSlice service.Subnets])
  else
    pure none

/-- The function `ValidateImage`. -/
def ValidateImage (_service : Service) (im : Option ami.Image) : Go error :=
  match im with
  | none => pure (Errorf "Image is nil" [])
  | some im =>
    match im.DeployWithTag with
    | none => do
      let id ← Go.deref im.ImageID
      pure (Errorf "Image %v DeployWith Tag nil" [FmtArg.str id])
    | some tag =>
      if tag ≠ "step-asg-deployer" then do
        let id ← Go.deref im.ImageID
        pure (Errorf "Image %v DeployWith Tag expected: %v actual: %v"
          [FmtArg.str id, FmtArg.str "step-asg-deployer", FmtArg.str tag])
      else
        pure none

/-- The function `ValidateSubnet`. -/
def ValidateSubnet (_service : Service) (subnet : Option subnet.Subnet) : Go error :=
  match subnet with
  | none => pure (Errorf "Subnet is nil" [])
  | some subnet =>
    match subnet.DeployWithTag with
    | none => do
      let id ← Go.deref subnet.SubnetID
      pure (Errorf "Subnet %v DeployWith Tag nil" [FmtArg.str id])
    | some tag =>
      if tag ≠ "step-asg-deployer" then do
        let id ← Go.deref subnet.SubnetID
        pure (Errorf "Subnet %v DeployWith Tag expected: %v actual: %v"
          [FmtArg.str id, FmtArg.str "step-asg-deployer", FmtArg.str tag])
      else
        pure none

/-- The function `ValidatePrevASG`. -/
def ValidatePrevASG (service : Service) (as : Option asg.ASG) : Go error :=
  match as with
  | none => pure none
  | some as =>
    if !aws.HasProjectName as service.ProjectName then
      pure (Errorf "Previous ASG incorrect ProjectName requires %q has %q"
        [FmtArg.strs service.ProjectName, FmtArg.strs (aws.ProjectNamer.ProjectName as)])
    else if !aws.HasConfigName as service.ConfigName then
      pure (Errorf "Previous ASG incorrect ConfigName requires %q has %q"
        [FmtArg.strs service.ConfigName, FmtArg.strs (aws.ConfigNamer.ConfigName as)])
    else if !aws.HasServiceName as service.Name then
      pure (Errorf "Previous ASG incorrect ServiceName requires %q has %q"
        [FmtArg.strs service.Name, FmtArg.strs (aws.ServiceNamer.ServiceName as)])
    else
      match aws.ReleaseIDer.ReleaseID as with
      | none => pure (Errorf "Previous ASG ReleaseID nil" [])
      | some prevID => do
        let id ← Go.deref service.ReleaseID
        if prevID = id then
          pure (Errorf "Previous ASG incorrect ReleaseID requires %q has %q"
            [FmtArg.strs service.ReleaseID, FmtArg.strs (aws.ReleaseIDer.ReleaseID as)])
        else
          pure none

/-- The function `ValidateIAMProfile`; `fmt.Sprintf` with `%v` writes a string
operand as it is. -/
def ValidateIAMProfile (service : Service) (profile : Option iam.Profile) : Go error :=
  match profile with
  | none => pure none
  | some profile =>
    match profile.Path with
    | none => pure (Errorf "Iam Profile Path not found" [])
    | some path => do
      let project ← Go.deref service.ProjectName
      let config ← Go.deref service.ConfigName
      let name ← Go.deref service.Name
      let validPath := "/" ++ project ++ "/" ++ config ++ "/" ++ name ++ "/"
      if path ≠ validPath then
        pure (Errorf "Iam Profile Path incorrect, it is %q and requires %q"
          [FmtArg.str path, FmtArg.str validPath])
      else
        pure none

/-- The function `ValidateSecurityGroup`. -/
def ValidateSecurityGroup (service : Service) (sc : Option sg.SecurityGroup) : Go error :=
  match sc with
  | none => pure (Errorf "SecurityGroup is nil" [])
  | some sc =>
    if !aws.HasProjectName sc service.ProjectName then
      pure (Errorf "Security Group incorrect ProjectName requires %q has %q"
        [FmtArg.strs service.ProjectName, FmtArg.strs (aws.ProjectNamer.ProjectName sc)])
    else if !aws.HasConfigName sc service.ConfigName then
      pure (Errorf "Security Group incorrect ConfigName requires %q has %q"
        [FmtArg.strs service.ConfigName, FmtArg.strs (aws.ConfigNamer.ConfigName sc)])
    else if !aws.HasServiceName sc service.Name then
      pure (Errorf "Security Group incorrect ServiceName requires %q has %q"
        [FmtArg.strs service.Name, FmtArg.strs (aws.ServiceNamer.ServiceName sc)])
    else
      pure none

/-- The function `ValidateELB`. -/
def ValidateELB (service : Service) (lb : Option elb.LoadBalancer) : Go error :=
  match lb with
  | none => pure (Errorf "LoadBalancer is nil" [])
  | some lb =>
    if !aws.HasProjectName lb service.ProjectName then
      pure (Errorf "ELB incorrect ProjectName requires %q has %q"
        [FmtArg.strs service.ProjectName, FmtArg.strs (aws.ProjectNamer.ProjectName lb)])
    else if !aws.HasConfigName lb service.ConfigName then
      pure (Errorf "ELB incorrect ConfigName requires %q has %q"
        [FmtArg.strs service.ConfigName, FmtArg.strs (aws.ConfigNamer.ConfigName lb)])
    else if !aws.HasServiceName lb service.Name then
      pure (Errorf "ELB incorrect ServiceName requires %q has %q"
        [FmtArg.strs service.Name, FmtArg.strs (aws.ServiceNamer.ServiceName lb)])
    else
      pure none

/-- The function `ValidateTargetGroup`. -/
def ValidateTargetGroup (service : Service) (tg : Option alb.TargetGroup) : Go error :=
  match tg with
  | none => pure (Errorf "TargetGroup is nil" [])
  | some tg =>
    if !aws.HasProjectName tg service.ProjectName then
      pure (Errorf "Target Group incorrect ProjectName requires %q has %q"
        [FmtArg.strs service.ProjectName, FmtArg.strs (aws.ProjectNamer.ProjectName tg)])
    else if !aws.HasConfigName tg service.ConfigName then
      pure (Errorf "Target Group incorrect ConfigName requires %q has %q"
        [FmtArg.strs service.ConfigName, FmtArg.strs (aws.ConfigNamer.ConfigName tg)])
    else if !aws.HasServiceName tg service.Name then
      pure (Errorf "Target Group incorrect ServiceName requires %q has %q"
        [FmtArg.strs service.Name, FmtArg.strs (aws.ServiceNamer.ServiceName tg)])
    else
      pure none

/-- The statement `if err := check; err != nil { return err }` followed by
`rest`. -/
def orReturn (check : Go error) (rest : Go error) : Go error :=
  match check with
  | Go.ret none => rest
  | Go.ret (some err) => Go.ret (some err)
  | Go.panic => Go.panic

/-- A loop `for _, r := range rs { if err := validate(r); err != nil { return
err } }` followed by `rest`. -/
def forEach {ρ : Type} (validate : Option ρ → Go error) (rs : List (Option ρ))
    (rest : Go error) : Go error :=
  match rs with
  | [] => rest
  | r :: more => orReturn (validate r) (forEach validate more rest)

/-- The method `Validate`. -/
def ServiceResources.Validate (sr : ServiceResources) (service : Service) : Go error :=
  orReturn (sr.validateAttributes service) <|
  orReturn (ValidateImage service sr.Image) <|
  orReturn (ValidateIAMProfile service sr.Profile) <|
  orReturn (ValidatePrevASG service sr.PrevASG) <|
  forEach (ValidateSecurityGroup service) sr.SecurityGroups <|
  forEach (ValidateELB service) sr.ELBs <|
  forEach (ValidateTargetGroup service) sr.TargetGroups <|
  forEach (ValidateSubnet service) sr.Subnets <|
  Go.ret none

end models

/-! ## Package `client` (`deployer/client/halt.go`) -/

namespace client

/-- What `halt` calls, over a release type `ρ`, an execution type `ε` and the
state `σ` of the orchestration engine and the durable storage. The helper
`executionPrefix` and the method `release.Halt` are missing from the sources,
`execution.FindExecution` and `WaitForExecution` belong to the library
`coinbase/step`: each is taken as it is called. Modelled from the spec:
`WaitForExecution` yields the `error-or-nil` of `waitForTerminal`. -/
structure Collaborators (ρ ε σ : Type) where
  executionPrefix : ρ → String
  FindExecution : Option String → String → σ → (Option ε × error) × σ
  Halt : ρ → σ → error × σ
  WaitForExecution : ε → σ → error × σ

/-- The function `halt` of `deployer/client/halt.go`. The call of
`WaitForExecution` is a statement of its own: whatever it yields is not read.
The closing `fmt.Println("")` only writes a line break. -/
def halt {ρ ε σ : Type} (awsc : Collaborators ρ ε σ) (release : ρ)
    (deployerARN : Option String) (s : σ) : error × σ :=
  match awsc.FindExecution deployerARN (awsc.executionPrefix release) s with
  | ((_, some err), s1) => (some err, s1)
  | ((none, none), s1) =>
    (Errorf "Cannot find current execution of release with prefix %q"
      [FmtArg.str (awsc.executionPrefix release)], s1)
  | ((some exec, none), s1) =>
    match awsc.Halt release s1 with
    | (some err, s2) => (some err, s2)
    | (none, s2) => (none, (awsc.WaitForExecution exec s2).2)

end client

/-! ## Specification vocabulary -/

/-- The contract of the tag index, for a tag type `τ` with key and value
fields and a lookup `fetch`: on a list of tags, an absent key gives absent; a
key that no tag carries gives absent; otherwise the result is the value of
the first tag, in list order, whose key is present and is the requested
key. -/
def FirstMatchLookup {τ : Type} (key value : τ → Option String)
    (fetch : List (Option τ) → Option String → Go (Option String)) : Prop :=
  ∀ tags : List τ,
    fetch (tags.map some) none = Go.ret none ∧
    (∀ k : String, (∀ t ∈ tags, key t ≠ some k) →
      fetch (tags.map some) (some k) = Go.ret none) ∧
    (∀ (k : String) (before : List τ) (t : τ) (after : List τ),
      tags = before ++ t :: after → key t = some k → (∀ u ∈ before, key u ≠ some k) →
      fetch (tags.map some) (some k) = Go.ret (value t))

/-- The service's identity as the spec words it for a resource with tags
`project`, `config` and `name`: each tag is present and equal to the service's
project name, config name and service name respectively. -/
def IdentityMatches (service : models.Service) (project config name : Option String) : Prop :=
  (project ≠ none ∧ project = service.ProjectName) ∧
  (config ≠ none ∧ config = service.ConfigName) ∧
  (name ≠ none ∧ name = service.Name)

instance (service : models.Service) (project config name : Option String) :
    Decidable (IdentityMatches service project config name) := by
  unfold IdentityMatches; infer_instance

/-- A validator accepts exactly the resources that are present and `good`:
it returns no error on those, and an error on every other one. -/
def AcceptsExactly {ρ : Type} (validate : Option ρ → Go error) (good : ρ → Prop) : Prop :=
  ∀ r : Option ρ,
    (validate r = Go.ret none ↔ ∃ g : ρ, r = some g ∧ good g) ∧
    ((¬ ∃ g : ρ, r = some g ∧ good g) → ∃ e : GoError, validate r = Go.ret (some e))

/-- The checks of `validate` in the order the spec lists them: attribute and
count checks, image, instance profile, previous scaling group, then every
security group, every load balancer, every target group and every subnet, each
in list order. -/
def validationChecks (sr : models.ServiceResources) (service : models.Service) :
    List (Go error) :=
  [sr.validateAttributes service,
   models.ValidateImage service sr.Image,
   models.ValidateIAMProfile service sr.Profile,
   models.ValidatePrevASG service sr.PrevASG]
  ++ sr.SecurityGroups.map (models.ValidateSecurityGroup service)
  ++ sr.ELBs.map (models.ValidateELB service)
  ++ sr.TargetGroups.map (models.ValidateTargetGroup service)
  ++ sr.Subnets.map (models.ValidateSubnet service)

/-- The message of the error `e` includes both the value `expected` and the
value `actual`: they are two of its operands, in one order or the other. -/
def Includes (e : GoError) (expected actual : FmtArg) : Prop :=
  List.Sublist [expected, actual] e.args ∨ List.Sublist [actual, expected] e.args

/-- An absence found on the bundle `sr`, and the error that reports it: a
resource the bundle must hold is absent, or a present resource lacks the
attribute that is checked; the error has no operand, or the identifier of the
resource as its only one. -/
inductive AbsenceReport (sr : models.ServiceResources) : GoError → Prop where
  | image :
    sr.Image = none →
    AbsenceReport sr { format := "Image is nil", args := [] }
  | imageTag (image : ami.Image) (id : String) :
    sr.Image = some image → image.DeployWithTag = none → image.ImageID = some id →
    AbsenceReport sr { format := "Image %v DeployWith Tag nil", args := [FmtArg.str id] }
  | profilePath (profile : iam.Profile) :
    sr.Profile = some profile → profile.Path = none →
    AbsenceReport sr { format := "Iam Profile Path not found", args := [] }
  | prevRelease (prev : asg.ASG) :
    sr.PrevASG = some prev → prev.ReleaseIDTag = none →
    AbsenceReport sr { format := "Previous ASG ReleaseID nil", args := [] }
  | securityGroup :
    none ∈ sr.SecurityGroups →
    AbsenceReport sr { format := "SecurityGroup is nil", args := [] }
  | loadBalancer :
    none ∈ sr.ELBs →
    AbsenceReport sr { format := "LoadBalancer is nil", args := [] }
  | targetGroup :
    none ∈ sr.TargetGroups →
    AbsenceReport sr { format := "TargetGroup is nil", args := [] }
  | subnet :
    none ∈ sr.Subnets →
    AbsenceReport sr { format := "Subnet is nil", args := [] }
  | subnetTag (net : subnet.Subnet) (id : String) :
    some net ∈ sr.Subnets → net.DeployWithTag = none → net.SubnetID = some id →
    AbsenceReport sr { format := "Subnet %v DeployWith Tag nil", args := [FmtArg.str id] }

/-- An identity comparison that failed on a resource tagged `project`,
`config`, `name`, with its expected value, its actual value and the error
that reports it: the tag is not both present and equal to the service's
value; the service's value is the expected one, the tag the actual one, and
they are the two operands of the error. The three formats are those of the
kind of resource. -/
inductive IdentityMismatch (service : models.Service) (project config name : Option String)
    (projectFormat configFormat serviceFormat : String) :
    FmtArg → FmtArg → GoError → Prop where
  | projectName :
    ¬ (project ≠ none ∧ project = service.ProjectName) →
    IdentityMismatch service project config name projectFormat configFormat serviceFormat
      (FmtArg.strs service.ProjectName) (FmtArg.strs project)
      { format := projectFormat
        args := [FmtArg.strs service.ProjectName, FmtArg.strs project] }
  | configName :
    ¬ (config ≠ none ∧ config = service.ConfigName) →
    IdentityMismatch service project config name projectFormat configFormat serviceFormat
      (FmtArg.strs service.ConfigName) (FmtArg.strs config)
      { format := configFormat
        args := [FmtArg.strs service.ConfigName, FmtArg.strs config] }
  | serviceName :
    ¬ (name ≠ none ∧ name = service.Name) →
    IdentityMismatch service project config name projectFormat configFormat serviceFormat
      (FmtArg.strs service.Name) (FmtArg.strs name)
      { format := serviceFormat
        args := [FmtArg.strs service.Name, FmtArg.strs name] }

/-- A comparison of `validate` that failed on the bundle `sr` for `service`,
with its expected value, its actual value and the error that reports it.
For a count check the counts differ, and the values reported are the declared
names and the identifiers of the discovered resources as
`ToServiceResourceNames` lists them (absent resources and empty identifiers
left out), not the counts. For a convention tag the tag is present and is not
`step-asg-deployer`. For the profile the path is present and is not the
service's path. For the release the previous scaling group carries the
service's ReleaseID. For an identity check see `IdentityMismatch`. -/
inductive FailedComparison (sr : models.ServiceResources) (service : models.Service) :
    FmtArg → FmtArg → GoError → Prop where
  | securityGroups :
    service.SecurityGroups.length ≠ sr.SecurityGroups.length →
    FailedComparison sr service (FmtArg.strSlice service.SecurityGroups)
      (FmtArg.strSlice sr.ToServiceResourceNames.SecurityGroups)
      { format := "Security Group Not Found actual %v expected %v"
        args := [FmtArg.strSlice sr.ToServiceResourceNames.SecurityGroups,
          FmtArg.strSlice service.SecurityGroups] }
  | loadBalancers :
    service.ELBs.length ≠ sr.ELBs.length →
    FailedComparison sr service (FmtArg.strSlice service.ELBs)
      (FmtArg.strSlice sr.ToServiceResourceNames.ELBs)
      { format := "ELB Not Found actual %v expected %v"
        args := [FmtArg.strSlice sr.ToServiceResourceNames.ELBs,
          FmtArg.strSlice service.ELBs] }
  | targetGroups :
    service.TargetGroups.length ≠ sr.TargetGroups.length →
    FailedComparison sr service (FmtArg.strSlice service.TargetGroups)
      (FmtArg.strSlice sr.ToServiceResourceNames.TargetGroups)
      { format := "TargetGroup Not Found actual %v expected %v"
        args := [FmtArg.strSlice sr.ToServiceResourceNames.TargetGroups,
          FmtArg.strSlice service.TargetGroups] }
  | subnets :
    service.Subnets.length ≠ sr.Subnets.length →
    FailedComparison sr service (FmtArg.strSlice service.Subnets)
      (FmtArg.strSlice sr.ToServiceResourceNames.Subnets)
      { format := "Subnets Not Found actual %v expected %v"
        args := [FmtArg.strSlice sr.ToServiceResourceNames.Subnets,
          FmtArg.strSlice service.Subnets] }
  | imageTag (image : ami.Image) (tag id : String) :
    sr.Image = some image → image.DeployWithTag = some tag → tag ≠ "step-asg-deployer" →
    image.ImageID = some id →
    FailedComparison sr service (FmtArg.str "step-asg-deployer") (FmtArg.str tag)
      { format := "Image %v DeployWith Tag expected: %v actual: %v"
        args := [FmtArg.str id, FmtArg.str "step-asg-deployer", FmtArg.str tag] }
  | subnetTag (net : subnet.Subnet) (tag id : String) :
    some net ∈ sr.Subnets → net.DeployWithTag = some tag → tag ≠ "step-asg-deployer" →
    net.SubnetID = some id →
    FailedComparison sr service (FmtArg.str "step-asg-deployer") (FmtArg.str tag)
      { format := "Subnet %v DeployWith Tag expected: %v actual: %v"
        args := [FmtArg.str id, FmtArg.str "step-asg-deployer", FmtArg.str tag] }
  | profilePath (profile : iam.Profile) (path project config name : String) :
    sr.Profile = some profile → profile.Path = some path →
    service.ProjectName = some project → service.ConfigName = some config →
    service.Name = some name →
    path ≠ "/" ++ project ++ "/" ++ config ++ "/" ++ name ++ "/" →
    FailedComparison sr service
      (FmtArg.str ("/" ++ project ++ "/" ++ config ++ "/" ++ name ++ "/")) (FmtArg.str path)
      { format := "Iam Profile Path incorrect, it is %q and requires %q"
        args := [FmtArg.str path,
          FmtArg.str ("/" ++ project ++ "/" ++ config ++ "/" ++ name ++ "/")] }
  | prevIdentity (prev : asg.ASG) (expected actual : FmtArg) (e : GoError) :
    sr.PrevASG = some prev →
    IdentityMismatch service prev.ProjectNameTag prev.ConfigNameTag prev.ServiceNameTag
      "Previous ASG incorrect ProjectName requires %q has %q"
      "Previous ASG incorrect ConfigName requires %q has %q"
      "Previous ASG incorrect ServiceName requires %q has %q" expected actual e →
    FailedComparison sr service expected actual e
  | prevRelease (prev : asg.ASG) (release : String) :
    sr.PrevASG = some prev → prev.ReleaseIDTag = some release →
    service.ReleaseID = some release →
    FailedComparison sr service (FmtArg.strs (some release)) (FmtArg.strs (some release))
      { format := "Previous ASG incorrect ReleaseID requires %q has %q"
        args := [FmtArg.strs (some release), FmtArg.strs (some release)] }
  | securityGroupIdentity (g : sg.SecurityGroup) (expected actual : FmtArg) (e : GoError) :
    some g ∈ sr.SecurityGroups →
    IdentityMismatch service g.ProjectNameTag g.ConfigNameTag g.ServiceNameTag
      "Security Group incorrect ProjectName requires %q has %q"
      "Security Group incorrect ConfigName requires %q has %q"
      "Security Group incorrect ServiceName requires %q has %q" expected actual e →
    FailedComparison sr service expected actual e
  | loadBalancerIdentity (lb : elb.LoadBalancer) (expected actual : FmtArg) (e : GoError) :
    some lb ∈ sr.ELBs →
    IdentityMismatch service lb.ProjectNameTag lb.ConfigNameTag lb.ServiceNameTag
      "ELB incorrect ProjectName requires %q has %q"
      "ELB incorrect ConfigName requires %q has %q"
      "ELB incorrect ServiceName requires %q has %q" expected actual e →
    FailedComparison sr service expected actual e
  | targetGroupIdentity (tg : alb.TargetGroup) (expected actual : FmtArg) (e : GoError) :
    some tg ∈ sr.TargetGroups →
    IdentityMismatch service tg.ProjectNameTag tg.ConfigNameTag tg.ServiceNameTag
      "Target Group incorrect ProjectName requires %q has %q"
      "Target Group incorrect ConfigName requires %q has %q"
      "Target Group incorrect ServiceName requires %q has %q" expected actual e →
    FailedComparison sr service expected actual e

/-- What the amended error contract asks of an error `e` of a validation of
`sr` against `service`: `e` is the report of an absence found on the bundle,
or `e` is the report of a comparison that failed on the bundle and its
message includes both the expected and the actual value of that
comparison. -/
def ReportsFailure (sr : models.ServiceResources) (service : models.Service) (e : GoError) :
    Prop :=
  AbsenceReport sr e ∨
    ∃ expected actual : FmtArg, FailedComparison sr service expected actual e ∧
      Includes e expected actual

/-- The sequence of (key, value) pairs a list of `ec2.Tag` carries; a nil entry
stays a nil entry. -/
def ec2Pairs (tags : List (Option ec2.Tag)) : List (Option (Option String × Option String)) :=
  tags.map (Option.map (fun t => (t.Key, t.Value)))

/-- The sequence of (key, value) pairs a list of `elb.Tag` carries. -/
def elbPairs (tags : List (Option elb.Tag)) : List (Option (Option String × Option String)) :=
  tags.map (Option.map (fun t => (t.Key, t.Value)))

/-- The sequence of (key, value) pairs a list of `elbv2.Tag` carries. -/
def elbv2Pairs (tags : List (Option elbv2.Tag)) :
    List (Option (Option String × Option String)) :=
  tags.map (Option.map (fun t => (t.Key, t.Value)))

/-- The sequence of (key, value) pairs a list of `autoscaling.TagDescription`
carries. -/
def asgPairs (tags : List (Option autoscaling.TagDescription)) :
    List (Option (Option String × Option String)) :=
  tags.map (Option.map (fun t => (t.Key, t.Value)))

/-- The tag index on a bare sequence of (key, value) pairs, for a key that is
present: the value of the first pair whose key is present and is `tagKey`. -/
def lookupPairs (tagKey : String) :
    List (Option (Option String × Option String)) → Go (Option String)
  | [] => Go.ret none
  | none :: _ => Go.panic
  | some (none, _) :: rest => lookupPairs tagKey rest
  | some (some key, value) :: rest =>
    if key = tagKey then Go.ret value else lookupPairs tagKey rest

/-- The names `names` are looked up one after the other, each lookup starting
in the provider state the one before left: `find` succeeds on each, `tgs` lists
the target groups found, in the order of the names, and `s1` is the provider
state after the last lookup. -/
def FoundInOrder {σ : Type} (albc : aws.ALBAPI σ) :
    List (Option String) → σ → List (Option alb.TargetGroup) → σ → Prop
  | [], s, tgs, s1 => tgs = [] ∧ s1 = s
  | name :: rest, s, tgs, s1 =>
    ∃ (tg : Option alb.TargetGroup) (mid : σ) (more : List (Option alb.TargetGroup)),
      alb.find albc name s = Go.ret ((tg, none), mid) ∧ tgs = tg :: more ∧
      FoundInOrder albc rest mid more s1

/-! ## Concrete inputs -/

namespace models

/-- A service `svc1` that declares no dependent resource. -/
def svcBare : Service where
  ProjectName := some "project"
  ConfigName := some "config"
  Name := some "svc1"
  ReleaseID := some "release"
  SecurityGroups := []
  ELBs := []
  TargetGroups := []
  Subnets := []

/-- A service `svc1` that declares one resource of every kind. -/
def svcFull : Service where
  ProjectName := some "project"
  ConfigName := some "config"
  Name := some "svc1"
  ReleaseID := some "release"
  SecurityGroups := [some "sg1"]
  ELBs := [some "elb1"]
  TargetGroups := [some "tg1"]
  Subnets := [some "subnet1"]

/-- A machine image carrying the convention tag. -/
def imageOk : ami.Image where
  ImageID := some "ami-1"
  DeployWithTag := some "step-asg-deployer"

/-- A security group tagged for `svc1`. -/
def sgOk : sg.SecurityGroup where
  GroupID := some "sg-1"
  ProjectNameTag := some "project"
  ConfigNameTag := some "config"
  ServiceNameTag := some "svc1"

/-- A load balancer tagged for `svc1`. -/
def elbOk : elb.LoadBalancer where
  LoadBalancerName := some "elb1"
  ProjectNameTag := some "project"
  ConfigNameTag := some "config"
  ServiceNameTag := some "svc1"

/-- A target group tagged for `svc1`. -/
def tgOk : alb.TargetGroup where
  ProjectNameTag := some "project"
  ConfigNameTag := some "config"
  ServiceNameTag := some "svc1"
  TargetGroupArn := some "arn:tg1"

/-- A subnet carrying the convention tag. -/
def subnetOk : subnet.Subnet where
  SubnetID := some "subnet-1"
  DeployWithTag := some "step-asg-deployer"

/-- An instance profile on the path of `svc1`. -/
def profileOk : iam.Profile where
  Arn := some "arn:profile"
  Path := some "/project/config/svc1/"

/-- A scaling group of `svc1` from the release `old`. -/
def asgOld : asg.ASG where
  AutoScalingGroupName := some "asg-old"
  ProjectNameTag := some "project"
  ConfigNameTag := some "config"
  ServiceNameTag := some "svc1"
  ReleaseIDTag := some "old"

/-- A scaling group of `svc1` tagged with the release being deployed. -/
def asgSame : asg.ASG where
  AutoScalingGroupName := some "asg-same"
  ProjectNameTag := some "project"
  ConfigNameTag := some "config"
  ServiceNameTag := some "svc1"
  ReleaseIDTag := some "release"

/-- A scaling group of another project tagged with the release being
deployed. -/
def asgOther : asg.ASG where
  AutoScalingGroupName := some "asg-other"
  ProjectNameTag := some "other"
  ConfigNameTag := some "config"
  ServiceNameTag := some "svc1"
  ReleaseIDTag := some "release"

/-- A scaling group of `svc1` that carries no ReleaseID tag. -/
def asgNoRelease : asg.ASG where
  AutoScalingGroupName := some "asg-untagged"
  ProjectNameTag := some "project"
  ConfigNameTag := some "config"
  ServiceNameTag := some "svc1"
  ReleaseIDTag := none

/-- A security group tagged for another project. -/
def sgOther : sg.SecurityGroup where
  GroupID := some "sg-2"
  ProjectNameTag := some "other"
  ConfigNameTag := some "config"
  ServiceNameTag := some "svc1"

/-- The first release of `svc1` with the security group of another project in
place of its own. -/
def bundleWrongGroup : ServiceResources where
  Image := some imageOk
  Profile := some profileOk
  PrevASG := none
  SecurityGroups := [some sgOther]
  ELBs := [some elbOk]
  TargetGroups := [some tgOk]
  Subnets := [some subnetOk]

/-- A bundle with gaps everywhere: an image without convention tag, a profile
without path, a previous scaling group without ReleaseID, an absent element
and a resource without tags in every list. Its image and its subnet carry an
identifier. -/
def bundleRagged : ServiceResources where
  Image := some { ImageID := some "ami-1", DeployWithTag := none }
  Profile := some { Arn := none, Path := none }
  PrevASG := some asgNoRelease
  SecurityGroups := [none, some (sg.SecurityGroup.mk none none none none)]
  ELBs := [none, some (elb.LoadBalancer.mk none none none none)]
  TargetGroups := [none, some (alb.TargetGroup.mk none none none none)]
  Subnets := [none, some { SubnetID := some "subnet-1", DeployWithTag := none }]

/-- The service `svc1` declaring two resources of every kind. -/
def svcTwo : Service where
  ProjectName := some "project"
  ConfigName := some "config"
  Name := some "svc1"
  ReleaseID := some "release"
  SecurityGroups := [some "sg1", some "sg2"]
  ELBs := [some "elb1", some "elb2"]
  TargetGroups := [some "tg1", some "tg2"]
  Subnets := [some "subnet1", some "subnet2"]

/-- A bundle that holds an image and, as its only security group, an absent
one. -/
def bundleNilGroup : ServiceResources where
  Image := some imageOk
  Profile := none
  PrevASG := none
  SecurityGroups := [none]
  ELBs := []
  TargetGroups := []
  Subnets := []

/-- The bundle in which nothing was discovered. -/
def bundleEmpty : ServiceResources where
  Image := none
  Profile := none
  PrevASG := none
  SecurityGroups := []
  ELBs := []
  TargetGroups := []
  Subnets := []

/-- The bundle that holds a machine image and nothing else. -/
def bundleImage : ServiceResources where
  Image := some imageOk
  Profile := none
  PrevASG := none
  SecurityGroups := []
  ELBs := []
  TargetGroups := []
  Subnets := []

/-- A first release of `svc1`: one resource of every kind, no previous
scaling group. -/
def bundleFirstRelease : ServiceResources where
  Image := some imageOk
  Profile := some profileOk
  PrevASG := none
  SecurityGroups := [some sgOk]
  ELBs := [some elbOk]
  TargetGroups := [some tgOk]
  Subnets := [some subnetOk]

end models

namespace asg

/-- The scaling group the test registers for a project, config, service and
release. -/
def previousRuntime (project config service release : String) : ASG where
  AutoScalingGroupName := some (project ++ "-" ++ config ++ "-" ++ service ++ "-" ++ release)
  ProjectNameTag := some project
  ConfigNameTag := some config
  ServiceNameTag := some service
  ReleaseIDTag := some release

/-- The five scaling groups of `Test_ForProjectConfigNotReleaseIDServiceMap`. -/
def groupsOfTest : List ASG :=
  [previousRuntime "project" "config" "service1" "release",
   previousRuntime "project" "config" "service2" "release",
   previousRuntime "project" "config" "service3" "not_release",
   previousRuntime "not_project" "config" "service4" "release",
   previousRuntime "project" "not_config" "service5" "release"]

/-- The two scaling groups of `Test_ForProjectConfigNotReleaseIDServiceMap_Error`. -/
def groupsOfErrorTest : List ASG :=
  [previousRuntime "project" "config" "service1" "release",
   previousRuntime "project" "config" "service1" "release"]

end asg

namespace alb

/-- A provider that answers every describe-target-groups call with the groups
`groups`, whatever names are asked for, and every other call with an empty
result; its state counts the calls made. -/
def providerReturning (groups : List elbv2.TargetGroup) : aws.ALBAPI Nat where
  DescribeTargetGroups := fun _ calls =>
    ((some { TargetGroups := groups.map some }, none), calls + 1)
  DescribeTags := fun _ calls => ((some { TagDescriptions := [] }, none), calls + 1)
  DescribeTargetHealth := fun _ calls =>
    ((some { TargetHealthDescriptions := [] }, none), calls + 1)

/-- A call received by a provider. -/
inductive Call where
  | describeTargetGroups (input : elbv2.DescribeTargetGroupsInput)
  | describeTags (input : elbv2.DescribeTagsInput)
  | describeTargetHealth (input : elbv2.DescribeTargetHealthInput)
  deriving DecidableEq

/-- A provider that answers by the three given functions; its state is the
list of the calls it has received, oldest first. -/
def recordingProvider
    (groups : elbv2.DescribeTargetGroupsInput → Option elbv2.DescribeTargetGroupsOutput × error)
    (tags : elbv2.DescribeTagsInput → Option elbv2.DescribeTagsOutput × error)
    (health : elbv2.DescribeTargetHealthInput →
      Option elbv2.DescribeTargetHealthOutput × error) :
    aws.ALBAPI (List Call) where
  DescribeTargetGroups := fun input log =>
    (groups input, log ++ [Call.describeTargetGroups input])
  DescribeTags := fun input log => (tags input, log ++ [Call.describeTags input])
  DescribeTargetHealth := fun input log =>
    (health input, log ++ [Call.describeTargetHealth input])

/-- The target groups registered with a provider: each with its tags. -/
abbrev Registry := List (elbv2.TargetGroup × List elbv2.Tag)

/-- The answer to describe-target-groups of a provider holding `registry`:
the groups registered under one of the names asked for. -/
def groupsOf (registry : Registry) (input : elbv2.DescribeTargetGroupsInput) :
    Option elbv2.DescribeTargetGroupsOutput × error :=
  let held := registry.filter (fun r => decide (r.1.TargetGroupName ∈ input.Names))
  (some { TargetGroups := held.map (fun r => some r.1) }, none)

/-- The answer to describe-tags of a provider holding `registry`: one tag
description for every group registered under one of the identifiers asked
for. -/
def tagsOf (registry : Registry) (input : elbv2.DescribeTagsInput) :
    Option elbv2.DescribeTagsOutput × error :=
  let held := registry.filter (fun r => decide (r.1.TargetGroupArn ∈ input.ResourceArns))
  let describe (r : elbv2.TargetGroup × List elbv2.Tag) : Option elbv2.TagDescription :=
    some { ResourceArn := r.1.TargetGroupArn, Tags := r.2.map some }
  (some { TagDescriptions := held.map describe }, none)

/-- The answer to describe-target-health that reports every target asked for
as healthy. -/
def healthOf (input : elbv2.DescribeTargetHealthInput) :
    Option elbv2.DescribeTargetHealthOutput × error :=
  let healthy : elbv2.TargetHealth := { State := some "healthy" }
  (some { TargetHealthDescriptions :=
    input.Targets.map (fun t => some { Target := t, TargetHealth := some healthy }) }, none)

/-- A recording provider that holds the target groups of `registry`. -/
def providerHolding (registry : Registry) : aws.ALBAPI (List Call) :=
  recordingProvider (groupsOf registry) (tagsOf registry) healthOf

/-- A recording provider every call of which fails with the error `e`. -/
def providerFailing (e : GoError) : aws.ALBAPI (List Call) :=
  recordingProvider (fun _ => (none, some e)) (fun _ => (none, some e))
    (fun _ => (none, some e))

/-- A recording provider that holds the target groups of `registry` and whose
describe-tags call fails with the error `e`. -/
def providerTagsFailing (registry : Registry) (e : GoError) : aws.ALBAPI (List Call) :=
  recordingProvider (groupsOf registry) (fun _ => (none, some e)) healthOf

/-- A transport error. -/
def transportError : GoError where
  format := "RequestError: send request failed"
  args := []

/-- The three identity tags of `svc1`. -/
def tagsSvc1 : List elbv2.Tag :=
  [{ Key := some "ProjectName", Value := some "project" },
   { Key := some "ConfigName", Value := some "config" },
   { Key := some "ServiceName", Value := some "svc1" }]

/-- The provider's target group named `tg2`. -/
def awsTg2 : elbv2.TargetGroup where
  TargetGroupName := some "tg2"
  TargetGroupArn := some "arn:tg2"

/-- The target group `find` builds for `tg2` tagged for `svc1`. -/
def tg2Found : TargetGroup where
  ProjectNameTag := some "project"
  ConfigNameTag := some "config"
  ServiceNameTag := some "svc1"
  TargetGroupArn := some "arn:tg2"

/-- The two calls `find` makes for the name `name` of the group `arn`. -/
def callsFor (name arn : String) : List Call :=
  [Call.describeTargetGroups { Names := [some name] },
   Call.describeTags { ResourceArns := [some arn] }]

/-- The provider's target group named `tg1`. -/
def awsTg1 : elbv2.TargetGroup where
  TargetGroupName := some "tg1"
  TargetGroupArn := some "arn:tg1"

/-- The provider's target group named `TG1`. -/
def awsTgUpper : elbv2.TargetGroup where
  TargetGroupName := some "TG1"
  TargetGroupArn := some "arn:TG1"

/-- A recording provider that holds `tg1` and `tg2`, both tagged for `svc1`. -/
def providerTwo : aws.ALBAPI (List Call) :=
  providerHolding [(awsTg1, tagsSvc1), (awsTg2, tagsSvc1)]

end alb

namespace aws

/-- Modelled from the spec: the declaration of `aws.Instances` is missing; the
finder "returns, for each, the provider-reported health state", so the map
takes an instance identifier to its health state, kept here as a list of
entries. -/
abbrev Instances := List (String × String)

/-- Modelled from the spec: the method `AddTargetGroupInstance` is missing; it
records the health state the provider reports for the described target,
replacing an entry the instance already has. -/
def AddTargetGroupInstance (all : Instances) (thd : Option elbv2.TargetHealthDescription) :
    Go Instances := do
  let description ← Go.deref thd
  let target ← Go.deref description.Target
  let id ← Go.deref target.Id
  let health ← Go.deref description.TargetHealth
  let state ← Go.deref health.State
  pure (all.filter (fun entry => decide (entry.1 ≠ id)) ++ [(id, state)])

/-- The two operations on the modelled map. -/
def instancesOps : InstancesOps Instances where
  empty := []
  AddTargetGroupInstance := AddTargetGroupInstance

end aws

namespace alb

/-- The health description of the instance `i-1`, healthy. -/
def healthI1 : elbv2.TargetHealthDescription where
  Target := some { Id := some "i-1" }
  TargetHealth := some { State := some "healthy" }

/-- A recording provider that describes every registered target when a
describe-target-health call names no target; `i-1` is registered. -/
def providerDescribingAll : aws.ALBAPI (List Call) :=
  recordingProvider (groupsOf []) (tagsOf [])
    (fun input =>
      match input.Targets with
      | [] => (some { TargetHealthDescriptions := [some healthI1] }, none)
      | _ => healthOf input)

end alb

namespace client

/-- A call received by the collaborators of `halt`. -/
inductive Step where
  | findExecution (deployerARN : Option String) (namePrefix : String)
  | haltWrite (release : String)
  | wait (run : String)
  deriving DecidableEq

/-- Collaborators that record every call they receive, oldest first: the run
lookup answers `found`, the halting-flag write `written`, the wait `waited`.
A release is its name and a run is its name. -/
def recordingCollaborators (found : Option String × error) (written waited : error) :
    Collaborators String String (List Step) where
  executionPrefix := fun release => "project-config-" ++ release
  FindExecution := fun arn namePrefix log => (found, log ++ [Step.findExecution arn namePrefix])
  Halt := fun release log => (written, log ++ [Step.haltWrite release])
  WaitForExecution := fun run log => (waited, log ++ [Step.wait run])

/-- The error of a wait that ran out of retries. -/
def waitError : GoError where
  format := "execution did not reach a terminal status"
  args := []

/-- The error of a failed write to the durable storage. -/
def writeError : GoError where
  format := "AccessDenied: PutObject"
  args := []

end client

/-! ## Go runtime lemmas -/

@[simp] theorem Go.pure_bind_eq {α β : Type} (a : α) (f : α → Go β) :
    (Go.ret a >>= f) = f a := rfl

@[simp] theorem Go.panic_bind_eq {α β : Type} (f : α → Go β) :
    ((Go.panic : Go α) >>= f) = Go.panic := rfl

@[simp] theorem Go.pure_eq {α : Type} (a : α) : (pure a : Go α) = Go.ret a := rfl

@[simp] theorem Go.deref_some {α : Type} (a : α) : Go.deref (some a) = Go.ret a := rfl

@[simp] theorem Go.deref_none {α : Type} : Go.deref (none : Option α) = Go.panic := rfl

@[simp] theorem Errorf_ne_none (format : String) (args : List FmtArg) :
    Errorf format args ≠ none := by
  simp [Errorf]

/-! ## Tag index -/

namespace aws

theorem fetchEc2Tag_loop_absent (k : String) (tags : List ec2.Tag)
    (h : ∀ t ∈ tags, t.Key ≠ some k) :
    FetchEc2Tag.loop k (tags.map some) = Go.ret none := by
  induction tags with
  | nil => rfl
  | cons t rest ih =>
    have ht : t.Key ≠ some k := h t (List.mem_cons_self _ _)
    have hr := ih (fun u hu => h u (List.mem_cons_of_mem _ hu))
    cases hk : t.Key with
    | none => simp [FetchEc2Tag.loop, hk, hr]
    | some key =>
      have hne : key ≠ k := fun e => ht (by rw [hk, e])
      simp [FetchEc2Tag.loop, hk, hne, hr]

theorem fetchEc2Tag_loop_first (k : String) (before : List ec2.Tag) (t : ec2.Tag)
    (after : List ec2.Tag) (ht : t.Key = some k) (h : ∀ u ∈ before, u.Key ≠ some k) :
    FetchEc2Tag.loop k ((before ++ t :: after).map some) = Go.ret t.Value := by
  induction before with
  | nil => simp [FetchEc2Tag.loop, ht]
  | cons u rest ih =>
    have hu : u.Key ≠ some k := h u (List.mem_cons_self _ _)
    have hr := ih (fun v hv => h v (List.mem_cons_of_mem _ hv))
    simp only [List.map_append, List.map_cons, List.cons_append] at hr ⊢
    cases hk : u.Key with
    | none => simp [FetchEc2Tag.loop, hk, hr]
    | some key =>
      have hne : key ≠ k := fun e => hu (by rw [hk, e])
      simp [FetchEc2Tag.loop, hk, hne, hr]

theorem fetchELBTag_loop_absent (k : String) (tags : List elb.Tag)
    (h : ∀ t ∈ tags, t.Key ≠ some k) :
    FetchELBTag.loop k (tags.map some) = Go.ret none := by
  induction tags with
  | nil => rfl
  | cons t rest ih =>
    have ht : t.Key ≠ some k := h t (List.mem_cons_self _ _)
    have hr := ih (fun u hu => h u (List.mem_cons_of_mem _ hu))
    cases hk : t.Key with
    | none => simp [FetchELBTag.loop, hk, hr]
    | some key =>
      have hne : key ≠ k := fun e => ht (by rw [hk, e])
      simp [FetchELBTag.loop, hk, hne, hr]

theorem fetchELBTag_loop_first (k : String) (before : List elb.Tag) (t : elb.Tag)
    (after : List elb.Tag) (ht : t.Key = some k) (h : ∀ u ∈ before, u.Key ≠ some k) :
    FetchELBTag.loop k ((before ++ t :: after).map some) = Go.ret t.Value := by
  induction before with
  | nil => simp [FetchELBTag.loop, ht]
  | cons u rest ih =>
    have hu : u.Key ≠ some k := h u (List.mem_cons_self _ _)
    have hr := ih (fun v hv => h v (List.mem_cons_of_mem _ hv))
    simp only [List.map_append, List.map_cons, List.cons_append] at hr ⊢
    cases hk : u.Key with
    | none => simp [FetchELBTag.loop, hk, hr]
    | some key =>
      have hne : key ≠ k := fun e => hu (by rw [hk, e])
      simp [FetchELBTag.loop, hk, hne, hr]

theorem fetchELBV2Tag_loop_absent (k : String) (tags : List elbv2.Tag)
    (h : ∀ t ∈ tags, t.Key ≠ some k) :
    FetchELBV2Tag.loop k (tags.map some) = Go.ret none := by
  induction tags with
  | nil => rfl
  | cons t rest ih =>
    have ht : t.Key ≠ some k := h t (List.mem_cons_self _ _)
    have hr := ih (fun u hu => h u (List.mem_cons_of_mem _ hu))
    cases hk : t.Key with
    | none => simp [FetchELBV2Tag.loop, hk, hr]
    | some key =>
      have hne : key ≠ k := fun e => ht (by rw [hk, e])
      simp [FetchELBV2Tag.loop, hk, hne, hr]

theorem fetchELBV2Tag_loop_first (k : String) (before : List elbv2.Tag) (t : elbv2.Tag)
    (after : List elbv2.Tag) (ht : t.Key = some k) (h : ∀ u ∈ before, u.Key ≠ some k) :
    FetchELBV2Tag.loop k ((before ++ t :: after).map some) = Go.ret t.Value := by
  induction before with
  | nil => simp [FetchELBV2Tag.loop, ht]
  | cons u rest ih =>
    have hu : u.Key ≠ some k := h u (List.mem_cons_self _ _)
    have hr := ih (fun v hv => h v (List.mem_cons_of_mem _ hv))
    simp only [List.map_append, List.map_cons, List.cons_append] at hr ⊢
    cases hk : u.Key with
    | none => simp [FetchELBV2Tag.loop, hk, hr]
    | some key =>
      have hne : key ≠ k := fun e => hu (by rw [hk, e])
      simp [FetchELBV2Tag.loop, hk, hne, hr]

theorem fetchASGTag_loop_absent (k : String) (tags : List autoscaling.TagDescription)
    (h : ∀ t ∈ tags, t.Key ≠ some k) :
    FetchASGTag.loop k (tags.map some) = Go.ret none := by
  induction tags with
  | nil => rfl
  | cons t rest ih =>
    have ht : t.Key ≠ some k := h t (List.mem_cons_self _ _)
    have hr := ih (fun u hu => h u (List.mem_cons_of_mem _ hu))
    cases hk : t.Key with
    | none => simp [FetchASGTag.loop, hk, hr]
    | some key =>
      have hne : key ≠ k := fun e => ht (by rw [hk, e])
      simp [FetchASGTag.loop, hk, hne, hr]

theorem fetchASGTag_loop_first (k : String) (before : List autoscaling.TagDescription) (t : autoscaling.TagDescription)
    (after : List autoscaling.TagDescription) (ht : t.Key = some k) (h : ∀ u ∈ before, u.Key ≠ some k) :
    FetchASGTag.loop k ((before ++ t :: after).map some) = Go.ret t.Value := by
  induction before with
  | nil => simp [FetchASGTag.loop, ht]
  | cons u rest ih =>
    have hu : u.Key ≠ some k := h u (List.mem_cons_self _ _)
    have hr := ih (fun v hv => h v (List.mem_cons_of_mem _ hv))
    simp only [List.map_append, List.map_cons, List.cons_append] at hr ⊢
    cases hk : u.Key with
    | none => simp [FetchASGTag.loop, hk, hr]
    | some key =>
      have hne : key ≠ k := fun e => hu (by rw [hk, e])
      simp [FetchASGTag.loop, hk, hne, hr]

/-- C1: each of the four tag lookups returns the value of the first tag, in
list order, whose key is present and equal to the requested key, and returns
nil when the requested key is nil or when no tag of the list has that key. -/
theorem fetchTag_first_match :
    FirstMatchLookup elbv2.Tag.Key elbv2.Tag.Value FetchELBV2Tag ∧
    FirstMatchLookup ec2.Tag.Key ec2.Tag.Value FetchEc2Tag ∧
    FirstMatchLookup elb.Tag.Key elb.Tag.Value FetchELBTag ∧
    FirstMatchLookup autoscaling.TagDescription.Key autoscaling.TagDescription.Value
      FetchASGTag := by
  refine ⟨fun tags => ⟨rfl, fun k h => ?_, fun k before t after e ht h => ?_⟩,
    fun tags => ⟨rfl, fun k h => ?_, fun k before t after e ht h => ?_⟩,
    fun tags => ⟨rfl, fun k h => ?_, fun k before t after e ht h => ?_⟩,
    fun tags => ⟨rfl, fun k h => ?_, fun k before t after e ht h => ?_⟩⟩
  · exact fetchELBV2Tag_loop_absent k tags h
  · subst e; exact fetchELBV2Tag_loop_first k before t after ht h
  · exact fetchEc2Tag_loop_absent k tags h
  · subst e; exact fetchEc2Tag_loop_first k before t after ht h
  · exact fetchELBTag_loop_absent k tags h
  · subst e; exact fetchELBTag_loop_first k before t after ht h
  · exact fetchASGTag_loop_absent k tags h
  · subst e; exact fetchASGTag_loop_first k before t after ht h

end aws

/-! ## Validation order -/

namespace models

theorem forEach_eq_foldr {ρ : Type} (validate : Option ρ → Go error) (rs : List (Option ρ))
    (rest : Go error) :
    forEach validate rs rest = (rs.map validate).foldr orReturn rest := by
  induction rs with
  | nil => rfl
  | cons r more ih => simp [forEach, ih]

theorem Validate_eq_foldr (sr : ServiceResources) (service : Service) :
    sr.Validate service = (validationChecks sr service).foldr orReturn (Go.ret none) := by
  simp [ServiceResources.Validate, validationChecks, forEach_eq_foldr, List.foldr_append]

theorem foldr_orReturn_eq_none (cs : List (Go error)) :
    cs.foldr orReturn (Go.ret none) = Go.ret none ↔ ∀ c ∈ cs, c = Go.ret none := by
  induction cs with
  | nil => simp
  | cons c cs ih =>
    rcases c with ⟨_ | e⟩ | _
    · simpa [orReturn] using ih
    · simp [orReturn]
    · simp [orReturn]

theorem foldr_orReturn_eq_some (cs : List (Go error)) (e : GoError) :
    cs.foldr orReturn (Go.ret none) = Go.ret (some e) ↔
      ∃ passed later : List (Go error),
        cs = passed ++ Go.ret (some e) :: later ∧ ∀ c ∈ passed, c = Go.ret none := by
  induction cs with
  | nil => simp
  | cons c cs ih =>
    rcases c with ⟨_ | e1⟩ | _
    · simp only [List.foldr_cons, orReturn, ih]
      constructor
      · rintro ⟨passed, later, rfl, h⟩
        refine ⟨Go.ret none :: passed, later, rfl, ?_⟩
        intro c hc
        rcases List.mem_cons.mp hc with rfl | hc
        · rfl
        · exact h c hc
      · rintro ⟨passed, later, hcs, h⟩
        cases passed with
        | nil => simp at hcs
        | cons q passed =>
          simp only [List.cons_append, List.cons.injEq] at hcs
          exact ⟨passed, later, hcs.2, fun c hc => h c (List.mem_cons_of_mem _ hc)⟩
    · simp only [List.foldr_cons, orReturn]
      constructor
      · intro h
        have he : e1 = e := by simpa using h
        subst he
        exact ⟨[], cs, rfl, by simp⟩
      · rintro ⟨passed, later, hcs, h⟩
        cases passed with
        | nil =>
          simp only [List.nil_append, List.cons.injEq] at hcs
          exact hcs.1
        | cons q passed =>
          simp only [List.cons_append, List.cons.injEq] at hcs
          have hq := h q (List.mem_cons_self _ _)
          rw [← hcs.1] at hq
          simp at hq
    · simp only [List.foldr_cons, orReturn]
      constructor
      · intro h; simp at h
      · rintro ⟨passed, later, hcs, h⟩
        cases passed with
        | nil => simp at hcs
        | cons q passed =>
          simp only [List.cons_append, List.cons.injEq] at hcs
          have hq := h q (List.mem_cons_self _ _)
          rw [← hcs.1] at hq
          simp at hq

/-- C2: Validate returns an error exactly when that error is returned by the
first check, in the fixed order (attributes, image, instance profile, previous
scaling group, security groups, load balancers, target groups, subnets), that
does not pass; and it returns no error exactly when every check passes. -/
theorem Validate_first_failing_check (sr : ServiceResources) (service : Service) :
    (∀ e : GoError, sr.Validate service = Go.ret (some e) ↔
      ∃ passed later : List (Go error),
        validationChecks sr service = passed ++ Go.ret (some e) :: later ∧
        ∀ c ∈ passed, c = Go.ret none) ∧
    (sr.Validate service = Go.ret none ↔
      ∀ c ∈ validationChecks sr service, c = Go.ret none) := by
  rw [Validate_eq_foldr]
  exact ⟨fun e => foldr_orReturn_eq_some _ e, foldr_orReturn_eq_none _⟩

/-! ## Attribute and count checks -/

theorem validateAttributes_count_mismatch (sr : ServiceResources) (service : Service)
    (h : service.SecurityGroups.length ≠ sr.SecurityGroups.length ∨
      service.ELBs.length ≠ sr.ELBs.length ∨
      service.TargetGroups.length ≠ sr.TargetGroups.length ∨
      service.Subnets.length ≠ sr.Subnets.length) :
    ∃ e : GoError, sr.validateAttributes service = Go.ret (some e) := by
  unfold ServiceResources.validateAttributes
  simp only [Go.pure_eq, Errorf]
  split_ifs with h0 h1 h2 h3 h4
  · exact ⟨_, rfl⟩
  · exact ⟨_, rfl⟩
  · exact ⟨_, rfl⟩
  · exact ⟨_, rfl⟩
  · exact ⟨_, rfl⟩
  · exfalso
    rcases h with h | h | h | h
    · exact h1 h
    · exact h2 h
    · exact h3 h
    · exact h4 h

/-- C3: when the number of discovered security groups, load balancers, target
groups or subnets differs (in either direction) from the number the service
declares, Validate returns an error. -/
theorem Validate_count_mismatch (sr : ServiceResources) (service : Service)
    (h : service.SecurityGroups.length ≠ sr.SecurityGroups.length ∨
      service.ELBs.length ≠ sr.ELBs.length ∨
      service.TargetGroups.length ≠ sr.TargetGroups.length ∨
      service.Subnets.length ≠ sr.Subnets.length) :
    ∃ e : GoError, sr.Validate service = Go.ret (some e) := by
  obtain ⟨e, he⟩ := validateAttributes_count_mismatch sr service h
  exact ⟨e, by simp [ServiceResources.Validate, he, orReturn]⟩

/-- C3, at a bundle with one security group more than declared and at a bundle
with one resource of every kind fewer than declared. -/
theorem Validate_count_mismatch_witness :
    (∃ e : GoError,
      ({ bundleImage with SecurityGroups := [some sgOk] } : ServiceResources).Validate svcBare
        = Go.ret (some e)) ∧
    (∃ e : GoError, bundleImage.Validate svcFull = Go.ret (some e)) :=
  ⟨Validate_count_mismatch _ _ (by decide), Validate_count_mismatch _ _ (by decide)⟩

/-- C4, as the spec states it, fails: the empty bundle, validated against a
service that declares no security group, load balancer, target group or
subnet, is refused with the error `Image is nil`. -/
theorem Validate_empty_bundle_refused :
    bundleEmpty.Validate svcBare = Go.ret (some { format := "Image is nil", args := [] }) := by
  decide

/-- C4, amended: a bundle that holds nothing but a machine image carrying the
`DeployWith` tag `step-asg-deployer` validates against every service that
declares no security group, load balancer, target group or subnet. -/
theorem Validate_image_only_bundle (service : Service) (image : ami.Image)
    (hsg : service.SecurityGroups = []) (helb : service.ELBs = [])
    (htg : service.TargetGroups = []) (hsub : service.Subnets = [])
    (htag : image.DeployWithTag = some "step-asg-deployer") :
    ServiceResources.Validate
      { bundleEmpty with Image := some image } service = Go.ret none := by
  simp [ServiceResources.Validate, ServiceResources.validateAttributes, ValidateImage,
    ValidateIAMProfile, ValidatePrevASG, forEach, orReturn, bundleEmpty, hsg, helb, htg, hsub,
    htag]

/-- C4, amended, at the service `svc1` and the image `ami-1`. -/
theorem Validate_image_only_bundle_witness :
    ServiceResources.Validate { bundleEmpty with Image := some imageOk } svcBare
      = Go.ret none :=
  Validate_image_only_bundle svcBare imageOk rfl rfl rfl rfl rfl

/-! ## Identity checks -/

theorem HasProjectName_iff {ρ : Type} [aws.ProjectNamer ρ] (r : ρ) (want : Option String) :
    aws.HasProjectName r want = true ↔
      aws.ProjectNamer.ProjectName r ≠ none ∧ aws.ProjectNamer.ProjectName r = want := by
  unfold aws.HasProjectName
  cases aws.ProjectNamer.ProjectName r <;> cases want <;> simp

theorem HasConfigName_iff {ρ : Type} [aws.ConfigNamer ρ] (r : ρ) (want : Option String) :
    aws.HasConfigName r want = true ↔
      aws.ConfigNamer.ConfigName r ≠ none ∧ aws.ConfigNamer.ConfigName r = want := by
  unfold aws.HasConfigName
  cases aws.ConfigNamer.ConfigName r <;> cases want <;> simp

theorem HasServiceName_iff {ρ : Type} [aws.ServiceNamer ρ] (r : ρ) (want : Option String) :
    aws.HasServiceName r want = true ↔
      aws.ServiceNamer.ServiceName r ≠ none ∧ aws.ServiceNamer.ServiceName r = want := by
  unfold aws.HasServiceName
  cases aws.ServiceNamer.ServiceName r <;> cases want <;> simp

theorem ValidateSecurityGroup_cases (service : Service) (sc : sg.SecurityGroup) :
    (ValidateSecurityGroup service (some sc) = Go.ret none ∧
      IdentityMatches service sc.ProjectNameTag sc.ConfigNameTag sc.ServiceNameTag) ∨
    ((∃ e : GoError, ValidateSecurityGroup service (some sc) = Go.ret (some e)) ∧
      ¬ IdentityMatches service sc.ProjectNameTag sc.ConfigNameTag sc.ServiceNameTag) := by
  have hp := HasProjectName_iff sc service.ProjectName
  have hc := HasConfigName_iff sc service.ConfigName
  have hs := HasServiceName_iff sc service.Name
  simp only [aws.ProjectNamer.ProjectName, aws.ConfigNamer.ConfigName,
    aws.ServiceNamer.ServiceName] at hp hc hs
  unfold ValidateSecurityGroup IdentityMatches
  simp only [Go.pure_eq, Errorf]
  cases h1 : aws.HasProjectName sc service.ProjectName
  · exact Or.inr ⟨⟨_, by simp; rfl⟩, fun h => by simp [hp.mpr h.1] at h1⟩
  · cases h2 : aws.HasConfigName sc service.ConfigName
    · exact Or.inr ⟨⟨_, by simp; rfl⟩, fun h => by simp [hc.mpr h.2.1] at h2⟩
    · cases h3 : aws.HasServiceName sc service.Name
      · exact Or.inr ⟨⟨_, by simp; rfl⟩, fun h => by simp [hs.mpr h.2.2] at h3⟩
      · exact Or.inl ⟨by simp, hp.mp h1, hc.mp h2, hs.mp h3⟩

theorem ValidateELB_cases (service : Service) (lb : elb.LoadBalancer) :
    (ValidateELB service (some lb) = Go.ret none ∧
      IdentityMatches service lb.ProjectNameTag lb.ConfigNameTag lb.ServiceNameTag) ∨
    ((∃ e : GoError, ValidateELB service (some lb) = Go.ret (some e)) ∧
      ¬ IdentityMatches service lb.ProjectNameTag lb.ConfigNameTag lb.ServiceNameTag) := by
  have hp := HasProjectName_iff lb service.ProjectName
  have hc := HasConfigName_iff lb service.ConfigName
  have hs := HasServiceName_iff lb service.Name
  simp only [aws.ProjectNamer.ProjectName, aws.ConfigNamer.ConfigName,
    aws.ServiceNamer.ServiceName] at hp hc hs
  unfold ValidateELB IdentityMatches
  simp only [Go.pure_eq, Errorf]
  cases h1 : aws.HasProjectName lb service.ProjectName
  · exact Or.inr ⟨⟨_, by simp; rfl⟩, fun h => by simp [hp.mpr h.1] at h1⟩
  · cases h2 : aws.HasConfigName lb service.ConfigName
    · exact Or.inr ⟨⟨_, by simp; rfl⟩, fun h => by simp [hc.mpr h.2.1] at h2⟩
    · cases h3 : aws.HasServiceName lb service.Name
      · exact Or.inr ⟨⟨_, by simp; rfl⟩, fun h => by simp [hs.mpr h.2.2] at h3⟩
      · exact Or.inl ⟨by simp, hp.mp h1, hc.mp h2, hs.mp h3⟩

theorem ValidateTargetGroup_cases (service : Service) (tg : alb.TargetGroup) :
    (ValidateTargetGroup service (some tg) = Go.ret none ∧
      IdentityMatches service tg.ProjectNameTag tg.ConfigNameTag tg.ServiceNameTag) ∨
    ((∃ e : GoError, ValidateTargetGroup service (some tg) = Go.ret (some e)) ∧
      ¬ IdentityMatches service tg.ProjectNameTag tg.ConfigNameTag tg.ServiceNameTag) := by
  have hp := HasProjectName_iff tg service.ProjectName
  have hc := HasConfigName_iff tg service.ConfigName
  have hs := HasServiceName_iff tg service.Name
  simp only [aws.ProjectNamer.ProjectName, aws.ConfigNamer.ConfigName,
    aws.ServiceNamer.ServiceName,
    alb.TargetGroup.ProjectName, alb.TargetGroup.ConfigName, alb.TargetGroup.ServiceName]
    at hp hc hs
  unfold ValidateTargetGroup IdentityMatches
  simp only [Go.pure_eq, Errorf]
  cases h1 : aws.HasProjectName tg service.ProjectName
  · exact Or.inr ⟨⟨_, by simp; rfl⟩, fun h => by simp [hp.mpr h.1] at h1⟩
  · cases h2 : aws.HasConfigName tg service.ConfigName
    · exact Or.inr ⟨⟨_, by simp; rfl⟩, fun h => by simp [hc.mpr h.2.1] at h2⟩
    · cases h3 : aws.HasServiceName tg service.Name
      · exact Or.inr ⟨⟨_, by simp; rfl⟩, fun h => by simp [hs.mpr h.2.2] at h3⟩
      · exact Or.inl ⟨by simp, hp.mp h1, hc.mp h2, hs.mp h3⟩

theorem acceptsExactly_of_cases {ρ : Type} (validate : Option ρ → Go error) (good : ρ → Prop)
    (hnil : ∃ e : GoError, validate none = Go.ret (some e))
    (hcases : ∀ g : ρ, (validate (some g) = Go.ret none ∧ good g) ∨
      ((∃ e : GoError, validate (some g) = Go.ret (some e)) ∧ ¬ good g)) :
    AcceptsExactly validate good := by
  intro r
  cases r with
  | none =>
    obtain ⟨e, he⟩ := hnil
    exact ⟨by simp [he], fun _ => ⟨e, he⟩⟩
  | some g =>
    rcases hcases g with ⟨hv, hg⟩ | ⟨⟨e, he⟩, hg⟩
    · exact ⟨by simp [hv, hg], fun h => absurd ⟨g, rfl, hg⟩ h⟩
    · exact ⟨by simp [he, hg], fun _ => ⟨e, he⟩⟩

/-- C5: each per-resource validator (security group, load balancer, target
group) returns no error if and only if the resource is present and its
ProjectName, ConfigName and ServiceName tags are all present and equal to the
service's project, config and service name; every other resource is an
error. -/
theorem validate_identity_exact (service : Service) :
    AcceptsExactly (ValidateSecurityGroup service)
      (fun g => IdentityMatches service g.ProjectNameTag g.ConfigNameTag g.ServiceNameTag) ∧
    AcceptsExactly (ValidateELB service)
      (fun g => IdentityMatches service g.ProjectNameTag g.ConfigNameTag g.ServiceNameTag) ∧
    AcceptsExactly (ValidateTargetGroup service)
      (fun g => IdentityMatches service g.ProjectNameTag g.ConfigNameTag g.ServiceNameTag) :=
  ⟨acceptsExactly_of_cases _ _ ⟨_, rfl⟩ (ValidateSecurityGroup_cases service),
   acceptsExactly_of_cases _ _ ⟨_, rfl⟩ (ValidateELB_cases service),
   acceptsExactly_of_cases _ _ ⟨_, rfl⟩ (ValidateTargetGroup_cases service)⟩

/-! ## Previous scaling group -/

/-- C6: a previous scaling group whose ReleaseID equals the service's
ReleaseID is refused by ValidatePrevASG, whatever its other tags are; when its
identity tags do match the service, the error is the ReleaseID one. -/
theorem ValidatePrevASG_same_release (service : Service) (as : asg.ASG)
    (h : as.ReleaseIDTag = service.ReleaseID) :
    (∃ e : GoError, ValidatePrevASG service (some as) = Go.ret (some e)) ∧
    (∀ release : String, as.ReleaseIDTag = some release →
      IdentityMatches service as.ProjectNameTag as.ConfigNameTag as.ServiceNameTag →
      ValidatePrevASG service (some as) =
        Go.ret (Errorf "Previous ASG incorrect ReleaseID requires %q has %q"
          [FmtArg.strs service.ReleaseID, FmtArg.strs as.ReleaseIDTag])) := by
  have hp := HasProjectName_iff as service.ProjectName
  have hc := HasConfigName_iff as service.ConfigName
  have hs := HasServiceName_iff as service.Name
  simp only [aws.ProjectNamer.ProjectName, aws.ConfigNamer.ConfigName,
    aws.ServiceNamer.ServiceName] at hp hc hs
  constructor
  · unfold ValidatePrevASG
    simp only [Go.pure_eq, Errorf, aws.ReleaseIDer.ReleaseID]
    cases h1 : aws.HasProjectName as service.ProjectName
    · exact ⟨_, by simp; rfl⟩
    · cases h2 : aws.HasConfigName as service.ConfigName
      · exact ⟨_, by simp; rfl⟩
      · cases h3 : aws.HasServiceName as service.Name
        · exact ⟨_, by simp; rfl⟩
        · cases h4 : as.ReleaseIDTag with
          | none => exact ⟨_, by simp; rfl⟩
          | some release =>
            rw [h4] at h
            exact ⟨_, by simp [← h]; rfl⟩
  · intro release hrel hid
    have h1 := hp.mpr hid.1
    have h2 := hc.mpr hid.2.1
    have h3 := hs.mpr hid.2.2
    rw [hrel] at h
    simp [ValidatePrevASG, h1, h2, h3, aws.ReleaseIDer.ReleaseID, hrel, ← h]

/-- C6, at a scaling group of `svc1` tagged with the release being deployed,
and at one of another project tagged so. -/
theorem ValidatePrevASG_same_release_witness :
    ValidatePrevASG svcBare (some asgSame) =
      Go.ret (Errorf "Previous ASG incorrect ReleaseID requires %q has %q"
        [FmtArg.strs (some "release"), FmtArg.strs (some "release")]) ∧
    ∃ e : GoError, ValidatePrevASG svcBare (some asgOther) = Go.ret (some e) :=
  ⟨(ValidatePrevASG_same_release svcBare asgSame rfl).2 "release" rfl (by decide),
   (ValidatePrevASG_same_release svcBare asgOther rfl).1⟩

/-- C7: ValidatePrevASG accepts an absent previous scaling group, so a bundle
without one is accepted by Validate as soon as its other checks pass. -/
theorem ValidatePrevASG_absent (service : Service) :
    ValidatePrevASG service none = Go.ret none ∧
    ∀ sr : ServiceResources, sr.PrevASG = none →
      sr.validateAttributes service = Go.ret none →
      ValidateImage service sr.Image = Go.ret none →
      ValidateIAMProfile service sr.Profile = Go.ret none →
      (∀ r ∈ sr.SecurityGroups, ValidateSecurityGroup service r = Go.ret none) →
      (∀ r ∈ sr.ELBs, ValidateELB service r = Go.ret none) →
      (∀ r ∈ sr.TargetGroups, ValidateTargetGroup service r = Go.ret none) →
      (∀ r ∈ sr.Subnets, ValidateSubnet service r = Go.ret none) →
      sr.Validate service = Go.ret none := by
  refine ⟨rfl, ?_⟩
  intro sr hprev hattr himg hprof hsg helb htg hsub
  rw [Validate_eq_foldr, foldr_orReturn_eq_none]
  intro c hc
  simp only [validationChecks, List.mem_append, List.mem_cons, List.mem_map,
    List.mem_singleton, List.not_mem_nil, or_false] at hc
  rcases hc with ((((rfl | rfl | rfl | rfl) | ⟨r, hr, rfl⟩) | ⟨r, hr, rfl⟩) | ⟨r, hr, rfl⟩) |
    ⟨r, hr, rfl⟩
  · exact hattr
  · exact himg
  · exact hprof
  · rw [hprev]; rfl
  · exact hsg r hr
  · exact helb r hr
  · exact htg r hr
  · exact hsub r hr

/-- C7, at the first release of `svc1`: one resource of every kind and no
previous scaling group. -/
theorem ValidatePrevASG_absent_witness :
    bundleFirstRelease.Validate svcFull = Go.ret none :=
  (ValidatePrevASG_absent svcFull).2 bundleFirstRelease rfl (by decide) (by decide)
    (by decide) (by decide) (by decide) (by decide) (by decide)

/-! ## Instance profile -/

/-- C8: for a service with project name P, config name C and service name S,
ValidateIAMProfile accepts an absent profile, accepts a present profile exactly
when its path is present and is the string "/P/C/S/", and returns an error for
every other present profile. -/
theorem ValidateIAMProfile_path (service : Service) (P C S : String)
    (hP : service.ProjectName = some P) (hC : service.ConfigName = some C)
    (hS : service.Name = some S) :
    ValidateIAMProfile service none = Go.ret none ∧
    ∀ profile : iam.Profile,
      (ValidateIAMProfile service (some profile) = Go.ret none ↔
        profile.Path = some ("/" ++ P ++ "/" ++ C ++ "/" ++ S ++ "/")) ∧
      (profile.Path ≠ some ("/" ++ P ++ "/" ++ C ++ "/" ++ S ++ "/") →
        ∃ e : GoError, ValidateIAMProfile service (some profile) = Go.ret (some e)) := by
  refine ⟨rfl, fun profile => ?_⟩
  unfold ValidateIAMProfile
  simp only [hP, hC, hS, Go.deref_some, Go.pure_bind_eq, Go.pure_eq, Errorf]
  cases hpath : profile.Path with
  | none => exact ⟨by simp, fun _ => ⟨_, rfl⟩⟩
  | some path =>
    by_cases heq : path = "/" ++ P ++ "/" ++ C ++ "/" ++ S ++ "/"
    · simp [heq]
    · exact ⟨by simp [heq], fun _ => ⟨_, by simp [heq]; rfl⟩⟩

/-- C8, at `svc1` of project `project` and config `config`: the profile on the
path `/project/config/svc1/` is accepted, one on `/project/config/svc1` is
not. -/
theorem ValidateIAMProfile_path_witness :
    ValidateIAMProfile svcBare (some profileOk) = Go.ret none ∧
    ∃ e : GoError,
      ValidateIAMProfile svcBare (some { profileOk with Path := some "/project/config/svc1" })
        = Go.ret (some e) :=
  ⟨(((ValidateIAMProfile_path svcBare "project" "config" "svc1" rfl rfl rfl).2 profileOk).1).mpr
      (by decide),
   ((ValidateIAMProfile_path svcBare "project" "config" "svc1" rfl rfl rfl).2
      { profileOk with Path := some "/project/config/svc1" }).2 (by decide)⟩

/-! ## Convention tag -/

/-- C9: ValidateImage, and likewise ValidateSubnet, returns no error if and
only if the image (subnet) is present and its DeployWith tag is present and is
exactly "step-asg-deployer"; neither result depends on the service. -/
theorem validate_convention_tag :
    (∀ (service : Service) (im : Option ami.Image),
      ValidateImage service im = Go.ret none ↔
        ∃ image : ami.Image, im = some image ∧
          image.DeployWithTag = some "step-asg-deployer") ∧
    (∀ (service : Service) (sn : Option subnet.Subnet),
      ValidateSubnet service sn = Go.ret none ↔
        ∃ net : subnet.Subnet, sn = some net ∧
          net.DeployWithTag = some "step-asg-deployer") ∧
    (∀ (service other : Service) (im : Option ami.Image),
      ValidateImage service im = ValidateImage other im) ∧
    (∀ (service other : Service) (sn : Option subnet.Subnet),
      ValidateSubnet service sn = ValidateSubnet other sn) := by
  refine ⟨?_, ?_, fun _ _ _ => rfl, fun _ _ _ => rfl⟩
  · intro service im
    cases im with
    | none => simp [ValidateImage, Errorf]
    | some image =>
      unfold ValidateImage
      cases htag : image.DeployWithTag with
      | none => cases hid : image.ImageID <;> simp [htag, hid, Errorf]
      | some tag =>
        by_cases heq : tag = "step-asg-deployer"
        · simp [htag, heq]
        · cases hid : image.ImageID <;> simp [htag, hid, heq, Errorf]
  · intro service sn
    cases sn with
    | none => simp [ValidateSubnet, Errorf]
    | some net =>
      unfold ValidateSubnet
      cases htag : net.DeployWithTag with
      | none => cases hid : net.SubnetID <;> simp [htag, hid, Errorf]
      | some tag =>
        by_cases heq : tag = "step-asg-deployer"
        · simp [htag, heq]
        · cases hid : net.SubnetID <;> simp [htag, hid, heq, Errorf]

end models

/-! ## Target-group finder -/

namespace alb

/-- C10: when the provider answers the describe-target-groups call for a name
without error, findByName fails with the not-found error if the answer holds
no target group, or holds a target group whose name differs from the requested
one; it returns the provider's target group if the answer holds exactly one
target group and its name is the requested one. -/
theorem findByName_result {σ : Type} (alb : aws.ALBAPI σ) (name : String) (s s1 : σ)
    (out : elbv2.DescribeTargetGroupsOutput)
    (hcall : alb.DescribeTargetGroups { Names := [some name] } s = ((some out, none), s1)) :
    (out.TargetGroups = [] →
      findByName alb (some name) s =
        Go.ret ((none, Errorf "LoadBalancer Not Found" []), s1)) ∧
    (∀ (tg : elbv2.TargetGroup) (other : String), some tg ∈ out.TargetGroups →
      tg.TargetGroupName = some other → other ≠ name →
      findByName alb (some name) s =
        Go.ret ((none, Errorf "LoadBalancer Not Found" []), s1)) ∧
    (∀ tg : elbv2.TargetGroup, out.TargetGroups = [some tg] →
      tg.TargetGroupName = some name →
      findByName alb (some name) s = Go.ret ((some tg, none), s1)) := by
  refine ⟨fun hnil => ?_, fun tg other hmem hname hne => ?_, fun tg hone hname => ?_⟩
  · simp [findByName, hcall, hnil]
  · rcases hout : out.TargetGroups with _ | ⟨first, _ | ⟨second, more⟩⟩
    · rw [hout] at hmem; simp at hmem
    · rw [hout] at hmem
      have hfirst : first = some tg := by
        simp only [List.mem_singleton] at hmem
        exact hmem.symm
      simp [findByName, hcall, hout, hfirst, hname, hne]
    · simp [findByName, hcall, hout]
  · simp [findByName, hcall, hone, hname]

/-- C10, at a provider holding no target group, at one answering `tg1` with
the group `TG1`, and at one holding exactly `tg1`. -/
theorem findByName_result_witness :
    findByName (providerReturning []) (some "tg1") 0 =
      Go.ret ((none, Errorf "LoadBalancer Not Found" []), 1) ∧
    findByName (providerReturning [awsTgUpper]) (some "tg1") 0 =
      Go.ret ((none, Errorf "LoadBalancer Not Found" []), 1) ∧
    findByName (providerReturning [awsTg1]) (some "tg1") 0 =
      Go.ret ((some awsTg1, none), 1) :=
  ⟨(findByName_result (providerReturning []) "tg1" 0 1 { TargetGroups := [] } rfl).1 rfl,
   (findByName_result (providerReturning [awsTgUpper]) "tg1" 0 1
      { TargetGroups := [some awsTgUpper] } rfl).2.1 awsTgUpper "TG1" (by decide) rfl
      (by decide),
   (findByName_result (providerReturning [awsTg1]) "tg1" 0 1
      { TargetGroups := [some awsTg1] } rfl).2.2 awsTg1 rfl rfl⟩

/-- C11: when the provider answers the describe-tags call for an identifier
without error but with no tag description, or with more than one,
findTagsByName fails with the not-found error and returns no tags. -/
theorem findTagsByName_not_exactly_one {σ : Type} (alb : aws.ALBAPI σ) (arn : Option String)
    (s s1 : σ) (out : elbv2.DescribeTagsOutput)
    (hcall : alb.DescribeTags { ResourceArns := [arn] } s = ((some out, none), s1))
    (hlen : out.TagDescriptions.length = 0 ∨ 1 < out.TagDescriptions.length) :
    findTagsByName alb arn s = Go.ret (([], Errorf "TargetGroup Not Found" []), s1) := by
  rcases hout : out.TagDescriptions with _ | ⟨first, _ | ⟨second, more⟩⟩
  · simp [findTagsByName, hcall, hout]
  · rw [hout] at hlen; simp at hlen
  · simp [findTagsByName, hcall, hout]

/-- C11, at a provider that holds no tag description for `arn:tg1` and at one
that holds two. -/
theorem findTagsByName_not_exactly_one_witness :
    findTagsByName (providerHolding []) (some "arn:tg1") [] =
      Go.ret (([], Errorf "TargetGroup Not Found" []),
        [Call.describeTags { ResourceArns := [some "arn:tg1"] }]) ∧
    findTagsByName (providerHolding [(awsTg1, tagsSvc1), (awsTg1, [])]) (some "arn:tg1") [] =
      Go.ret (([], Errorf "TargetGroup Not Found" []),
        [Call.describeTags { ResourceArns := [some "arn:tg1"] }]) :=
  ⟨findTagsByName_not_exactly_one (providerHolding []) (some "arn:tg1") [] _
      { TagDescriptions := [] } rfl (Or.inl rfl),
   findTagsByName_not_exactly_one (providerHolding [(awsTg1, tagsSvc1), (awsTg1, [])])
      (some "arn:tg1") [] _
      { TagDescriptions :=
          [some { ResourceArn := some "arn:tg1", Tags := tagsSvc1.map some },
           some { ResourceArn := some "arn:tg1", Tags := [] }] }
      (by decide) (Or.inr (by decide))⟩

/-! ## Finding all target groups -/

theorem FindAll_loop_found {σ : Type} (albc : aws.ALBAPI σ) (names : List (Option String)) :
    ∀ (acc tgs : List (Option TargetGroup)) (s s1 : σ),
      FindAll.loop albc names acc s = Go.ret ((tgs, none), s1) →
      ∃ found : List (Option TargetGroup), tgs = acc ++ found ∧
        FoundInOrder albc names s found s1 := by
  induction names with
  | nil =>
    intro acc tgs s s1 h
    simp only [FindAll.loop, Go.ret.injEq, Prod.mk.injEq, and_true] at h
    exact ⟨[], by simp [h.1], rfl, h.2.symm⟩
  | cons name rest ih =>
    intro acc tgs s s1 h
    unfold FindAll.loop at h
    cases hf : find albc name s with
    | panic => simp [hf] at h
    | ret r =>
      obtain ⟨⟨tg, err⟩, mid⟩ := r
      cases err with
      | some e => simp [hf] at h
      | none =>
        simp only [hf, Go.pure_bind_eq] at h
        obtain ⟨found, hfound, hrest⟩ := ih (acc ++ [tg]) tgs mid s1 h
        exact ⟨tg :: found, by simp [hfound], tg, mid, found, hf, rfl, hrest⟩

theorem FindAll_loop_append {σ : Type} (albc : aws.ALBAPI σ) (done rest : List (Option String)) :
    ∀ (acc tgs : List (Option TargetGroup)) (s s1 : σ),
      FindAll.loop albc done acc s = Go.ret ((tgs, none), s1) →
      FindAll.loop albc (done ++ rest) acc s = FindAll.loop albc rest tgs s1 := by
  induction done with
  | nil =>
    intro acc tgs s s1 h
    simp only [FindAll.loop, Go.ret.injEq, Prod.mk.injEq, and_true] at h
    simp [h.1, h.2]
  | cons name more ih =>
    intro acc tgs s s1 h
    unfold FindAll.loop at h
    cases hf : find albc name s with
    | panic => simp [hf] at h
    | ret r =>
      obtain ⟨⟨tg, err⟩, mid⟩ := r
      cases err with
      | some e => simp [hf] at h
      | none =>
        simp only [hf, Go.pure_bind_eq] at h
        have := ih (acc ++ [tg]) tgs mid s1 h
        simp only [List.cons_append]
        rw [FindAll.loop]
        simp only [hf, Go.pure_bind_eq]
        exact this

theorem FoundInOrder_length {σ : Type} (albc : aws.ALBAPI σ) (names : List (Option String)) :
    ∀ (tgs : List (Option TargetGroup)) (s s1 : σ),
      FoundInOrder albc names s tgs s1 → tgs.length = names.length := by
  induction names with
  | nil =>
    intro tgs s s1 h
    simp [FoundInOrder] at h
    simp [h.1]
  | cons name rest ih =>
    intro tgs s s1 h
    obtain ⟨tg, mid, more, _, htgs, hrest⟩ := h
    simp [htgs, ih more mid s1 hrest]

theorem FoundInOrder_index {σ : Type} (albc : aws.ALBAPI σ) (names : List (Option String)) :
    ∀ (tgs : List (Option TargetGroup)) (s s1 : σ),
      FoundInOrder albc names s tgs s1 →
      ∀ (i : Nat) (name : Option String), names[i]? = some name →
        ∃ (tg : Option TargetGroup) (before after : σ),
          tgs[i]? = some tg ∧ find albc name before = Go.ret ((tg, none), after) := by
  induction names with
  | nil =>
    intro tgs s s1 _ i name hi
    simp at hi
  | cons first rest ih =>
    intro tgs s s1 h i name hi
    obtain ⟨tg, mid, more, hfind, htgs, hrest⟩ := h
    cases i with
    | zero =>
      simp only [List.getElem?_cons_zero, Option.some.injEq] at hi
      subst hi
      exact ⟨tg, s, mid, by simp [htgs], hfind⟩
    | succ j =>
      simp only [List.getElem?_cons_succ] at hi
      obtain ⟨tg1, before, after, h1, h2⟩ := ih more mid s1 hrest j name hi
      exact ⟨tg1, before, after, by simp [htgs, h1], h2⟩

/-- C12: when FindAll succeeds, its result has as many target groups as there
are names, the lookups were made in the order of the names, and the i-th
result is the target group `find` returned for the i-th name; on the empty
list FindAll returns the empty list and no error, with no provider call. -/
theorem FindAll_preserves_order {σ : Type} (albc : aws.ALBAPI σ) (names : List (Option String))
    (tgs : List (Option TargetGroup)) (s s1 : σ) :
    (FindAll albc names s = Go.ret ((tgs, none), s1) →
      tgs.length = names.length ∧ FoundInOrder albc names s tgs s1 ∧
      ∀ (i : Nat) (name : Option String), names[i]? = some name →
        ∃ (tg : Option TargetGroup) (before after : σ),
          tgs[i]? = some tg ∧ find albc name before = Go.ret ((tg, none), after)) ∧
    FindAll albc [] s = Go.ret (([], none), s) := by
  refine ⟨fun h => ?_, rfl⟩
  obtain ⟨found, hfound, horder⟩ := FindAll_loop_found albc names [] tgs s s1 h
  simp only [List.nil_append] at hfound
  subst hfound
  exact ⟨FoundInOrder_length albc names _ s s1 horder, horder,
    FoundInOrder_index albc names _ s s1 horder⟩

/-- C13: when `find` succeeds on the names `done` and fails on the next name,
FindAll returns that error and no target group, for whatever names follow,
and leaves the provider in the state the failed lookup left it in: no call is
made for a later name. -/
theorem FindAll_fails_fast {σ : Type} (albc : aws.ALBAPI σ) (done : List (Option String))
    (name : Option String) (rest : List (Option String)) (tgs : List (Option TargetGroup))
    (r : Option TargetGroup) (e : GoError) (s s1 s2 : σ)
    (hdone : FindAll albc done s = Go.ret ((tgs, none), s1))
    (hfail : find albc name s1 = Go.ret ((r, some e), s2)) :
    FindAll albc (done ++ name :: rest) s = Go.ret (([], some e), s2) := by
  unfold FindAll at hdone ⊢
  rw [FindAll_loop_append albc done (name :: rest) [] tgs s s1 hdone, FindAll.loop]
  simp [hfail]

/-- C13, at a provider that holds `tg1` and `tg2` but no `missing`: the lookup
of `missing` fails after that of `tg1`, and no call is made for `tg2`. -/
theorem FindAll_fails_fast_witness :
    FindAll providerTwo [some "tg1", some "missing", some "tg2"] [] =
      Go.ret (([], Errorf "LoadBalancer Not Found" []),
        callsFor "tg1" "arn:tg1" ++
          [Call.describeTargetGroups { Names := [some "missing"] }]) :=
  FindAll_fails_fast providerTwo [some "tg1"] (some "missing") [some "tg2"]
    [some models.tgOk] none _ [] (callsFor "tg1" "arn:tg1") _ (by decide) (by decide)

/-- C12, at a provider that holds `tg1` and `tg2`, asked for both in this
order. -/
theorem FindAll_preserves_order_witness :
    [some models.tgOk, some tg2Found].length = [some "tg1", some "tg2"].length ∧
    FoundInOrder providerTwo [some "tg1", some "tg2"] []
      [some models.tgOk, some tg2Found] (callsFor "tg1" "arn:tg1" ++ callsFor "tg2" "arn:tg2") :=
  ⟨((FindAll_preserves_order providerTwo [some "tg1", some "tg2"]
      [some models.tgOk, some tg2Found] []
      (callsFor "tg1" "arn:tg1" ++ callsFor "tg2" "arn:tg2")).1 (by decide)).1,
   ((FindAll_preserves_order providerTwo [some "tg1", some "tg2"]
      [some models.tgOk, some tg2Found] []
      (callsFor "tg1" "arn:tg1" ++ callsFor "tg2" "arn:tg2")).1 (by decide)).2.1⟩

/-! ## Round trip -/

theorem fetchELBV2Tag_of_mem (tags : List elbv2.Tag) (t : elbv2.Tag) (k : String)
    (hkeys : (tags.map (fun u => u.Key)).Nodup) (hmem : t ∈ tags) (hk : t.Key = some k) :
    aws.FetchELBV2Tag (tags.map some) (some k) = Go.ret t.Value := by
  obtain ⟨before, after, rfl⟩ := List.append_of_mem hmem
  apply aws.fetchELBV2Tag_loop_first k before t after hk
  intro u hu hukey
  rw [List.map_append, List.nodup_append] at hkeys
  have h1 : some k ∈ before.map (fun u => u.Key) := List.mem_map.mpr ⟨u, hu, hukey⟩
  have h2 : some k ∈ (t :: after).map (fun u => u.Key) :=
    List.mem_map.mpr ⟨t, List.mem_cons_self _ _, hk⟩
  exact hkeys.2.2 h1 h2

/-- C14: when the provider answers the name N with exactly one target group,
named N and identified by A, and answers A with exactly one tag description
for A whose tags, of distinct keys, carry ProjectName=P, ConfigName=C and
ServiceName=S, then find(N) and FindAll([N]) return a TargetGroup whose
TargetGroupArn is A and whose accessors return P, C and S. -/
theorem find_round_trip {σ : Type} (albc : aws.ALBAPI σ) (N A P C S : String)
    (tags : List elbv2.Tag) (s s1 s2 : σ)
    (hgroup : albc.DescribeTargetGroups { Names := [some N] } s =
      ((some { TargetGroups := [some { TargetGroupName := some N, TargetGroupArn := some A }] },
        none), s1))
    (htags : albc.DescribeTags { ResourceArns := [some A] } s1 =
      ((some { TagDescriptions := [some { ResourceArn := some A, Tags := tags.map some }] },
        none), s2))
    (hkeys : (tags.map (fun u => u.Key)).Nodup)
    (hP : { Key := some "ProjectName", Value := some P } ∈ tags)
    (hC : { Key := some "ConfigName", Value := some C } ∈ tags)
    (hS : { Key := some "ServiceName", Value := some S } ∈ tags) :
    ∃ tg : TargetGroup,
      find albc (some N) s = Go.ret ((some tg, none), s2) ∧
      FindAll albc [some N] s = Go.ret (([some tg], none), s2) ∧
      tg.TargetGroupArn = some A ∧ tg.ProjectName = some P ∧ tg.ConfigName = some C ∧
      tg.ServiceName = some S := by
  have h1 : findByName albc (some N) s =
      Go.ret ((some { TargetGroupName := some N, TargetGroupArn := some A }, none), s1) := by
    simp [findByName, hgroup]
  have h2 : findTagsByName albc (some A) s1 = Go.ret ((tags.map some, none), s2) := by
    simp [findTagsByName, htags]
  have fP := fetchELBV2Tag_of_mem tags _ "ProjectName" hkeys hP rfl
  have fC := fetchELBV2Tag_of_mem tags _ "ConfigName" hkeys hC rfl
  have fS := fetchELBV2Tag_of_mem tags _ "ServiceName" hkeys hS rfl
  have hfind : find albc (some N) s =
      Go.ret ((some (TargetGroup.mk (some P) (some C) (some S) (some A)), none), s2) := by
    simp [find, h1, h2, fP, fC, fS]
  exact ⟨_, hfind, by simp [FindAll, FindAll.loop, hfind], rfl, rfl, rfl, rfl⟩

/-- C14, at a provider that holds `tg1`, identified by `arn:tg1` and tagged
for `svc1` of `project` and `config`. -/
theorem find_round_trip_witness :
    ∃ tg : TargetGroup,
      find providerTwo (some "tg1") [] = Go.ret ((some tg, none), callsFor "tg1" "arn:tg1") ∧
      FindAll providerTwo [some "tg1"] [] =
        Go.ret (([some tg], none), callsFor "tg1" "arn:tg1") ∧
      tg.TargetGroupArn = some "arn:tg1" ∧ tg.ProjectName = some "project" ∧
      tg.ConfigName = some "config" ∧ tg.ServiceName = some "svc1" :=
  find_round_trip providerTwo "tg1" "arn:tg1" "project" "config" "svc1" tagsSvc1 []
    [Call.describeTargetGroups { Names := [some "tg1"] }] (callsFor "tg1" "arn:tg1")
    (by decide) (by decide) (by decide) (by decide) (by decide) (by decide)

/-! ## Provider errors -/

/-- C19: an error returned by the provider's describe-target-groups,
describe-tags or describe-target-health call is returned as it is, with no
result, by findByName, findTagsByName and GetInstances, and by FindAll when
the call is made for the name that follows names found without error. -/
theorem provider_error_verbatim {σ ι : Type} (albc : aws.ALBAPI σ) (ops : aws.InstancesOps ι)
    (e : GoError) :
    (∀ (name : Option String) (s s1 : σ) (out : Option elbv2.DescribeTargetGroupsOutput),
      albc.DescribeTargetGroups { Names := [name] } s = ((out, some e), s1) →
      findByName albc name s = Go.ret ((none, some e), s1)) ∧
    (∀ (arn : Option String) (s s1 : σ) (out : Option elbv2.DescribeTagsOutput),
      albc.DescribeTags { ResourceArns := [arn] } s = ((out, some e), s1) →
      findTagsByName albc arn s = Go.ret (([], some e), s1)) ∧
    (∀ (arn : Option String) (instances : List String) (s s1 : σ)
      (out : Option elbv2.DescribeTargetHealthOutput),
      albc.DescribeTargetHealth (createDescribeTargetHealthInput arn instances) s =
        ((out, some e), s1) →
      GetInstances ops albc arn instances s = Go.ret ((none, some e), s1)) ∧
    (∀ (done : List (Option String)) (name : Option String) (rest : List (Option String))
      (tgs : List (Option TargetGroup)) (s s1 s2 : σ)
      (out : Option elbv2.DescribeTargetGroupsOutput),
      FindAll albc done s = Go.ret ((tgs, none), s1) →
      albc.DescribeTargetGroups { Names := [name] } s1 = ((out, some e), s2) →
      FindAll albc (done ++ name :: rest) s = Go.ret (([], some e), s2)) ∧
    (∀ (done : List (Option String)) (name : Option String) (rest : List (Option String))
      (tgs : List (Option TargetGroup)) (awsTarget : elbv2.TargetGroup) (s s1 s2 s3 : σ)
      (out : Option elbv2.DescribeTagsOutput),
      FindAll albc done s = Go.ret ((tgs, none), s1) →
      findByName albc name s1 = Go.ret ((some awsTarget, none), s2) →
      albc.DescribeTags { ResourceArns := [awsTarget.TargetGroupArn] } s2 =
        ((out, some e), s3) →
      FindAll albc (done ++ name :: rest) s = Go.ret (([], some e), s3)) := by
  have hname : ∀ (name : Option String) (s s1 : σ)
      (out : Option elbv2.DescribeTargetGroupsOutput),
      albc.DescribeTargetGroups { Names := [name] } s = ((out, some e), s1) →
      findByName albc name s = Go.ret ((none, some e), s1) := by
    intro name s s1 out h
    simp [findByName, h]
  have htags : ∀ (arn : Option String) (s s1 : σ) (out : Option elbv2.DescribeTagsOutput),
      albc.DescribeTags { ResourceArns := [arn] } s = ((out, some e), s1) →
      findTagsByName albc arn s = Go.ret (([], some e), s1) := by
    intro arn s s1 out h
    simp [findTagsByName, h]
  refine ⟨hname, htags, ?_, ?_, ?_⟩
  · intro arn instances s s1 out h
    simp [GetInstances, h]
  · intro done name rest tgs s s1 s2 out hdone h
    have hfind : find albc name s1 = Go.ret ((none, some e), s2) := by
      simp [find, hname name s1 s2 out h]
    unfold FindAll at hdone ⊢
    rw [FindAll_loop_append albc done (name :: rest) [] tgs s s1 hdone, FindAll.loop]
    simp [hfind]
  · intro done name rest tgs awsTarget s s1 s2 s3 out hdone hby h
    have hfind : find albc name s1 = Go.ret ((none, some e), s3) := by
      simp [find, hby, htags _ s2 s3 out h]
    unfold FindAll at hdone ⊢
    rw [FindAll_loop_append albc done (name :: rest) [] tgs s s1 hdone, FindAll.loop]
    simp [hfind]

/-- C19, at a provider every call of which fails with a transport error, and
at one whose describe-tags call fails after `tg1` was found. -/
theorem provider_error_verbatim_witness :
    findByName (providerFailing transportError) (some "tg1") [] =
      Go.ret ((none, some transportError),
        [Call.describeTargetGroups { Names := [some "tg1"] }]) ∧
    findTagsByName (providerFailing transportError) (some "arn:tg1") [] =
      Go.ret (([], some transportError),
        [Call.describeTags { ResourceArns := [some "arn:tg1"] }]) ∧
    GetInstances aws.instancesOps (providerFailing transportError) (some "arn:tg1") ["i-1"] [] =
      Go.ret ((none, some transportError),
        [Call.describeTargetHealth
          { TargetGroupArn := some "arn:tg1", Targets := [some { Id := some "i-1" }] }]) ∧
    FindAll (providerFailing transportError) [some "tg1", some "tg2"] [] =
      Go.ret (([], some transportError),
        [Call.describeTargetGroups { Names := [some "tg1"] }]) ∧
    FindAll (providerTagsFailing [(awsTg1, tagsSvc1)] transportError) [some "tg1"] [] =
      Go.ret (([], some transportError), callsFor "tg1" "arn:tg1") :=
  ⟨(provider_error_verbatim (providerFailing transportError) aws.instancesOps
      transportError).1 (some "tg1") [] _ none rfl,
   (provider_error_verbatim (providerFailing transportError) aws.instancesOps
      transportError).2.1 (some "arn:tg1") [] _ none rfl,
   (provider_error_verbatim (providerFailing transportError) aws.instancesOps
      transportError).2.2.1 (some "arn:tg1") ["i-1"] [] _ none rfl,
   (provider_error_verbatim (providerFailing transportError) aws.instancesOps
      transportError).2.2.2.1 [] (some "tg1") [some "tg2"] [] [] [] _ none rfl rfl,
   (provider_error_verbatim (providerTagsFailing [(awsTg1, tagsSvc1)] transportError)
      aws.instancesOps transportError).2.2.2.2 [] (some "tg1") [] [] awsTg1 [] []
      [Call.describeTargetGroups { Names := [some "tg1"] }] _ none rfl (by decide) rfl⟩

/-! ## Instance health -/

/-- C15, as the spec states it, fails: a provider that describes every
registered target when no target is named answers the call for an empty
instance list with the health of `i-1`, and GetInstances returns that entry;
and when the call fails GetInstances returns the error. -/
theorem GetInstances_no_instance_not_empty :
    GetInstances aws.instancesOps providerDescribingAll (some "arn:tg1") [] [] =
      Go.ret ((some [("i-1", "healthy")], none),
        [Call.describeTargetHealth { TargetGroupArn := some "arn:tg1", Targets := [] }]) ∧
    GetInstances aws.instancesOps (providerFailing transportError) (some "arn:tg1") [] [] =
      Go.ret ((none, some transportError),
        [Call.describeTargetHealth { TargetGroupArn := some "arn:tg1", Targets := [] }]) :=
  ⟨rfl, rfl⟩

/-- C15, amended: for an empty instance list GetInstances issues the
describe-health call with the given identifier and zero targets, and its
result is made of the provider's answer alone: the provider's error when the
call fails, the empty map when the answer holds no health description, and
otherwise the map filled from the descriptions of the answer, in order. -/
theorem GetInstances_empty_list {σ ι : Type} (ops : aws.InstancesOps ι) (albc : aws.ALBAPI σ)
    (arn : Option String) (s s1 : σ) (out : Option elbv2.DescribeTargetHealthOutput)
    (err : error)
    (hcall : albc.DescribeTargetHealth { TargetGroupArn := arn, Targets := [] } s =
      ((out, err), s1)) :
    createDescribeTargetHealthInput arn [] = { TargetGroupArn := arn, Targets := [] } ∧
    (∀ e : GoError, err = some e →
      GetInstances ops albc arn [] s = Go.ret ((none, some e), s1)) ∧
    (∀ answer : elbv2.DescribeTargetHealthOutput, err = none → out = some answer →
      answer.TargetHealthDescriptions = [] →
      GetInstances ops albc arn [] s = Go.ret ((some ops.empty, none), s1)) ∧
    (∀ answer : elbv2.DescribeTargetHealthOutput, err = none → out = some answer →
      GetInstances ops albc arn [] s =
        (GetInstances.loop ops answer.TargetHealthDescriptions ops.empty >>=
          fun tgInstances => Go.ret ((some tgInstances, none), s1))) := by
  have hin : createDescribeTargetHealthInput arn [] =
      { TargetGroupArn := arn, Targets := [] } := rfl
  refine ⟨hin, ?_, ?_, ?_⟩
  · intro e he
    subst he
    simp [GetInstances, hin, hcall]
  · intro answer he hout hnone
    subst he hout
    simp [GetInstances, hin, hcall, hnone, GetInstances.loop]
  · intro answer he hout
    subst he hout
    simp [GetInstances, hin, hcall]

/-- C15, amended, at a provider that reports the health of the targets asked
for: with no instance the call is made with zero targets and the result is
the empty map. -/
theorem GetInstances_empty_list_witness :
    GetInstances aws.instancesOps providerTwo (some "arn:tg1") [] [] =
      Go.ret ((some [], none),
        [Call.describeTargetHealth { TargetGroupArn := some "arn:tg1", Targets := [] }]) :=
  (GetInstances_empty_list aws.instancesOps providerTwo (some "arn:tg1") [] _
    (some { TargetHealthDescriptions := [] }) none rfl).2.2.1
    { TargetHealthDescriptions := [] } rfl rfl rfl

end alb

/-! ## Halt -/

namespace client

/-- C16: when the run lookup finds no run, halt returns an error and leaves
the state as the lookup left it; its result is the same whatever the
halting-flag write and the wait would do, so neither is called. -/
theorem halt_run_not_found {ρ ε σ : Type} (awsc : Collaborators ρ ε σ) (release : ρ)
    (deployerARN : Option String) (s s1 : σ) (lookupErr : error)
    (hfind : awsc.FindExecution deployerARN (awsc.executionPrefix release) s =
      ((none, lookupErr), s1)) :
    (∃ e : GoError, halt awsc release deployerARN s = (some e, s1)) ∧
    (lookupErr = none →
      halt awsc release deployerARN s =
        (Errorf "Cannot find current execution of release with prefix %q"
          [FmtArg.str (awsc.executionPrefix release)], s1)) ∧
    (∀ (write : ρ → σ → error × σ) (wait : ε → σ → error × σ),
      halt { awsc with Halt := write, WaitForExecution := wait } release deployerARN s =
        halt awsc release deployerARN s) := by
  cases lookupErr with
  | none =>
    refine ⟨⟨_, by simp [halt, hfind, Errorf]; rfl⟩, fun _ => by simp [halt, hfind], ?_⟩
    intro write wait
    simp [halt, hfind]
  | some e =>
    refine ⟨⟨e, by simp [halt, hfind]⟩, fun h => by simp at h, ?_⟩
    intro write wait
    simp [halt, hfind]

/-- C16, at a release whose run is not in the run history: the only call
received is the lookup. -/
theorem halt_run_not_found_witness :
    halt (recordingCollaborators (none, none) none none) "release-1" (some "deployerARN") [] =
      (Errorf "Cannot find current execution of release with prefix %q"
        [FmtArg.str "project-config-release-1"],
       [Step.findExecution (some "deployerARN") "project-config-release-1"]) :=
  (halt_run_not_found (recordingCollaborators (none, none) none none) "release-1"
    (some "deployerARN") [] _ none rfl).2.1 rfl

/-- C17, as the spec states it, fails: when the run is found and the
halting-flag write succeeds, halt returns no error although the wait fails. -/
theorem halt_wait_failure_not_returned :
    halt (recordingCollaborators (some "run-1", none) none (some waitError)) "release-1"
        (some "deployerARN") [] =
      (none,
       [Step.findExecution (some "deployerARN") "project-config-release-1",
        Step.haltWrite "release-1", Step.wait "run-1"]) := by
  decide

/-- C17, amended: halt returns the error of a failed run lookup and the error
of a failed halting-flag write as they are, and an error when no run is
found; once the write has succeeded it waits and returns no error, whatever
the wait yields. -/
theorem halt_returned_errors {ρ ε σ : Type} (awsc : Collaborators ρ ε σ) (release : ρ)
    (deployerARN : Option String) (s s1 : σ) (run : Option ε) (lookupErr : error)
    (hfind : awsc.FindExecution deployerARN (awsc.executionPrefix release) s =
      ((run, lookupErr), s1)) :
    (∀ e : GoError, lookupErr = some e → halt awsc release deployerARN s = (some e, s1)) ∧
    (lookupErr = none → run = none →
      ∃ e : GoError, halt awsc release deployerARN s = (some e, s1)) ∧
    (∀ (exec : ε) (e : GoError) (s2 : σ), lookupErr = none → run = some exec →
      awsc.Halt release s1 = (some e, s2) →
      halt awsc release deployerARN s = (some e, s2)) ∧
    (∀ (exec : ε) (s2 : σ), lookupErr = none → run = some exec →
      awsc.Halt release s1 = (none, s2) →
      halt awsc release deployerARN s = (none, (awsc.WaitForExecution exec s2).2)) := by
  refine ⟨?_, ?_, ?_, ?_⟩
  · intro e he
    subst he
    simp [halt, hfind]
  · intro he hrun
    subst he hrun
    exact ⟨_, by simp [halt, hfind, Errorf]; rfl⟩
  · intro exec e s2 he hrun hwrite
    subst he hrun
    simp [halt, hfind, hwrite]
  · intro exec s2 he hrun hwrite
    subst he hrun
    simp [halt, hfind, hwrite]

/-- C17, amended, at a failed lookup, at a failed write and at a failed
wait. -/
theorem halt_returned_errors_witness :
    halt (recordingCollaborators (none, some writeError) none none) "release-1"
        (some "deployerARN") [] =
      (some writeError, [Step.findExecution (some "deployerARN") "project-config-release-1"]) ∧
    halt (recordingCollaborators (some "run-1", none) (some writeError) none) "release-1"
        (some "deployerARN") [] =
      (some writeError,
       [Step.findExecution (some "deployerARN") "project-config-release-1",
        Step.haltWrite "release-1"]) ∧
    halt (recordingCollaborators (some "run-1", none) none (some waitError)) "release-1"
        (some "deployerARN") [] =
      (none,
       [Step.findExecution (some "deployerARN") "project-config-release-1",
        Step.haltWrite "release-1", Step.wait "run-1"]) :=
  ⟨(halt_returned_errors (recordingCollaborators (none, some writeError) none none)
      "release-1" (some "deployerARN") [] _ none (some writeError) rfl).1 writeError rfl,
   (halt_returned_errors (recordingCollaborators (some "run-1", none) (some writeError) none)
      "release-1" (some "deployerARN") [] _ (some "run-1") none rfl).2.2.1 "run-1" writeError
      _ rfl rfl rfl,
   (halt_returned_errors (recordingCollaborators (some "run-1", none) none (some waitError))
      "release-1" (some "deployerARN") [] _ (some "run-1") none rfl).2.2.2 "run-1" _ rfl rfl
      rfl⟩

end client

/-! ## One lookup, four representations -/

namespace aws

theorem fetchEc2Tag_loop_eq_lookupPairs (k : String) (tags : List (Option ec2.Tag)) :
    FetchEc2Tag.loop k tags = lookupPairs k (ec2Pairs tags) := by
  induction tags with
  | nil => rfl
  | cons entry rest ih =>
    cases entry with
    | none => rfl
    | some tag =>
      unfold ec2Pairs at ih ⊢
      cases hk : tag.Key with
      | none => simp [FetchEc2Tag.loop, lookupPairs, hk, ih]
      | some key => simp [FetchEc2Tag.loop, lookupPairs, hk, ih]

theorem fetchELBTag_loop_eq_lookupPairs (k : String) (tags : List (Option elb.Tag)) :
    FetchELBTag.loop k tags = lookupPairs k (elbPairs tags) := by
  induction tags with
  | nil => rfl
  | cons entry rest ih =>
    cases entry with
    | none => rfl
    | some tag =>
      unfold elbPairs at ih ⊢
      cases hk : tag.Key with
      | none => simp [FetchELBTag.loop, lookupPairs, hk, ih]
      | some key => simp [FetchELBTag.loop, lookupPairs, hk, ih]

theorem fetchELBV2Tag_loop_eq_lookupPairs (k : String) (tags : List (Option elbv2.Tag)) :
    FetchELBV2Tag.loop k tags = lookupPairs k (elbv2Pairs tags) := by
  induction tags with
  | nil => rfl
  | cons entry rest ih =>
    cases entry with
    | none => rfl
    | some tag =>
      unfold elbv2Pairs at ih ⊢
      cases hk : tag.Key with
      | none => simp [FetchELBV2Tag.loop, lookupPairs, hk, ih]
      | some key => simp [FetchELBV2Tag.loop, lookupPairs, hk, ih]

theorem fetchASGTag_loop_eq_lookupPairs (k : String) (tags : List (Option autoscaling.TagDescription)) :
    FetchASGTag.loop k tags = lookupPairs k (asgPairs tags) := by
  induction tags with
  | nil => rfl
  | cons entry rest ih =>
    cases entry with
    | none => rfl
    | some tag =>
      unfold asgPairs at ih ⊢
      cases hk : tag.Key with
      | none => simp [FetchASGTag.loop, lookupPairs, hk, ih]
      | some key => simp [FetchASGTag.loop, lookupPairs, hk, ih]

/-- C20: on tag lists of the four provider representations that carry the same
sequence of (key, value) pairs, FetchEc2Tag, FetchELBTag, FetchELBV2Tag and
FetchASGTag return the same result for every key. -/
theorem fetchTag_same_semantics (ec2Tags : List (Option ec2.Tag))
    (elbTags : List (Option elb.Tag)) (elbv2Tags : List (Option elbv2.Tag))
    (asgTags : List (Option autoscaling.TagDescription)) (key : Option String)
    (helb : elbPairs elbTags = ec2Pairs ec2Tags)
    (helbv2 : elbv2Pairs elbv2Tags = ec2Pairs ec2Tags)
    (hasg : asgPairs asgTags = ec2Pairs ec2Tags) :
    FetchELBTag elbTags key = FetchEc2Tag ec2Tags key ∧
    FetchELBV2Tag elbv2Tags key = FetchEc2Tag ec2Tags key ∧
    FetchASGTag asgTags key = FetchEc2Tag ec2Tags key := by
  cases key with
  | none => exact ⟨rfl, rfl, rfl⟩
  | some k =>
    refine ⟨?_, ?_, ?_⟩ <;>
      simp only [FetchEc2Tag, FetchELBTag, FetchELBV2Tag, FetchASGTag,
        fetchEc2Tag_loop_eq_lookupPairs, fetchELBTag_loop_eq_lookupPairs,
        fetchELBV2Tag_loop_eq_lookupPairs, fetchASGTag_loop_eq_lookupPairs, helb, helbv2, hasg]

/-- C20, at the pairs (Name, web) and (DeployWith, step-asg-deployer) in the
four representations, looked up under the key DeployWith. -/
theorem fetchTag_same_semantics_witness :
    FetchELBTag
        [some { Key := some "Name", Value := some "web" },
         some { Key := some "DeployWith", Value := some "step-asg-deployer" }]
        (some "DeployWith") =
      FetchEc2Tag
        [some { Key := some "Name", Value := some "web" },
         some { Key := some "DeployWith", Value := some "step-asg-deployer" }]
        (some "DeployWith") ∧
    FetchELBV2Tag
        [some { Key := some "Name", Value := some "web" },
         some { Key := some "DeployWith", Value := some "step-asg-deployer" }]
        (some "DeployWith") =
      FetchEc2Tag
        [some { Key := some "Name", Value := some "web" },
         some { Key := some "DeployWith", Value := some "step-asg-deployer" }]
        (some "DeployWith") ∧
    FetchASGTag
        [some { Key := some "Name", PropagateAtLaunch := some true, ResourceId := some "asg-1",
                ResourceType := some "auto-scaling-group", Value := some "web" },
         some { Key := some "DeployWith", PropagateAtLaunch := none, ResourceId := none,
                ResourceType := none, Value := some "step-asg-deployer" }]
        (some "DeployWith") =
      FetchEc2Tag
        [some { Key := some "Name", Value := some "web" },
         some { Key := some "DeployWith", Value := some "step-asg-deployer" }]
        (some "DeployWith") :=
  fetchTag_same_semantics _ _ _ _ (some "DeployWith") rfl rfl rfl

end aws

/-! ## Error messages -/

namespace models

theorem includes_pair (format : String) (expected actual : FmtArg) :
    Includes { format := format, args := [expected, actual] } expected actual :=
  Or.inl (List.Sublist.refl _)

theorem includes_pair_swapped (format : String) (expected actual : FmtArg) :
    Includes { format := format, args := [actual, expected] } expected actual :=
  Or.inr (List.Sublist.refl _)

theorem includes_after_id (format : String) (id expected actual : FmtArg) :
    Includes { format := format, args := [id, expected, actual] } expected actual :=
  Or.inl (List.Sublist.cons _ (List.Sublist.refl _))

theorem projectName_differs {ρ : Type} [aws.ProjectNamer ρ] (r : ρ) (want : Option String)
    (h : aws.HasProjectName r want = false) :
    ¬ (aws.ProjectNamer.ProjectName r ≠ none ∧ aws.ProjectNamer.ProjectName r = want) := by
  intro hc
  have := (HasProjectName_iff r want).mpr hc
  rw [h] at this
  cases this

theorem configName_differs {ρ : Type} [aws.ConfigNamer ρ] (r : ρ) (want : Option String)
    (h : aws.HasConfigName r want = false) :
    ¬ (aws.ConfigNamer.ConfigName r ≠ none ∧ aws.ConfigNamer.ConfigName r = want) := by
  intro hc
  have := (HasConfigName_iff r want).mpr hc
  rw [h] at this
  cases this

theorem serviceName_differs {ρ : Type} [aws.ServiceNamer ρ] (r : ρ) (want : Option String)
    (h : aws.HasServiceName r want = false) :
    ¬ (aws.ServiceNamer.ServiceName r ≠ none ∧ aws.ServiceNamer.ServiceName r = want) := by
  intro hc
  have := (HasServiceName_iff r want).mpr hc
  rw [h] at this
  cases this

theorem validateAttributes_reports (sr : ServiceResources) (service : Service)
    (e : GoError) (h : sr.validateAttributes service = Go.ret (some e)) :
    ReportsFailure sr service e := by
  unfold ServiceResources.validateAttributes at h
  simp only [Go.pure_eq, Errorf] at h
  split_ifs at h with h0 h1 h2 h3 h4
  · simp only [Go.ret.injEq, Option.some.injEq] at h
    subst h
    exact Or.inl (AbsenceReport.image h0)
  · simp only [Go.ret.injEq, Option.some.injEq] at h
    subst h
    exact Or.inr ⟨_, _, FailedComparison.securityGroups h1, includes_pair_swapped _ _ _⟩
  · simp only [Go.ret.injEq, Option.some.injEq] at h
    subst h
    exact Or.inr ⟨_, _, FailedComparison.loadBalancers h2, includes_pair_swapped _ _ _⟩
  · simp only [Go.ret.injEq, Option.some.injEq] at h
    subst h
    exact Or.inr ⟨_, _, FailedComparison.targetGroups h3, includes_pair_swapped _ _ _⟩
  · simp only [Go.ret.injEq, Option.some.injEq] at h
    subst h
    exact Or.inr ⟨_, _, FailedComparison.subnets h4, includes_pair_swapped _ _ _⟩
  · simp at h

theorem ValidateImage_reports (sr : ServiceResources) (service : Service) (e : GoError)
    (h : ValidateImage service sr.Image = Go.ret (some e)) : ReportsFailure sr service e := by
  cases himg : sr.Image with
  | none =>
    rw [himg] at h
    simp only [ValidateImage, Go.pure_eq, Errorf, Go.ret.injEq, Option.some.injEq] at h
    subst h
    exact Or.inl (AbsenceReport.image himg)
  | some image =>
    rw [himg] at h
    unfold ValidateImage at h
    cases htag : image.DeployWithTag with
    | none =>
      cases hid : image.ImageID with
      | none => simp [htag, hid] at h
      | some id =>
        simp only [htag, hid, Go.deref_some, Go.pure_bind_eq, Go.pure_eq, Errorf, Go.ret.injEq,
          Option.some.injEq] at h
        subst h
        exact Or.inl (AbsenceReport.imageTag image id himg htag hid)
    | some tag =>
      by_cases heq : tag = "step-asg-deployer"
      · simp [htag, heq] at h
      · cases hid : image.ImageID with
        | none => simp [htag, hid, heq] at h
        | some id =>
          simp [htag, hid, heq, Errorf] at h
          subst h
          exact Or.inr ⟨_, _, FailedComparison.imageTag image tag id himg htag heq hid,
            includes_after_id _ _ _ _⟩

theorem ValidateSubnet_reports (sr : ServiceResources) (service : Service)
    (r : Option subnet.Subnet) (hr : r ∈ sr.Subnets) (e : GoError)
    (h : ValidateSubnet service r = Go.ret (some e)) : ReportsFailure sr service e := by
  cases r with
  | none =>
    simp only [ValidateSubnet, Go.pure_eq, Errorf, Go.ret.injEq, Option.some.injEq] at h
    subst h
    exact Or.inl (AbsenceReport.subnet hr)
  | some net =>
    unfold ValidateSubnet at h
    cases htag : net.DeployWithTag with
    | none =>
      cases hid : net.SubnetID with
      | none => simp [htag, hid] at h
      | some id =>
        simp only [htag, hid, Go.deref_some, Go.pure_bind_eq, Go.pure_eq, Errorf, Go.ret.injEq,
          Option.some.injEq] at h
        subst h
        exact Or.inl (AbsenceReport.subnetTag net id hr htag hid)
    | some tag =>
      by_cases heq : tag = "step-asg-deployer"
      · simp [htag, heq] at h
      · cases hid : net.SubnetID with
        | none => simp [htag, hid, heq] at h
        | some id =>
          simp [htag, hid, heq, Errorf] at h
          subst h
          exact Or.inr ⟨_, _, FailedComparison.subnetTag net tag id hr htag heq hid,
            includes_after_id _ _ _ _⟩

theorem ValidateIAMProfile_reports (sr : ServiceResources) (service : Service)
    (e : GoError) (h : ValidateIAMProfile service sr.Profile = Go.ret (some e)) :
    ReportsFailure sr service e := by
  cases hprof : sr.Profile with
  | none =>
    rw [hprof] at h
    simp [ValidateIAMProfile] at h
  | some profile =>
    rw [hprof] at h
    unfold ValidateIAMProfile at h
    cases hpath : profile.Path with
    | none =>
      simp only [hpath, Go.pure_eq, Errorf, Go.ret.injEq, Option.some.injEq] at h
      subst h
      exact Or.inl (AbsenceReport.profilePath profile hprof hpath)
    | some path =>
      cases hP : service.ProjectName with
      | none => simp [hpath, hP] at h
      | some project =>
        cases hC : service.ConfigName with
        | none => simp [hpath, hP, hC] at h
        | some config =>
          cases hS : service.Name with
          | none => simp [hpath, hP, hC, hS] at h
          | some name =>
            by_cases heq : path = "/" ++ project ++ "/" ++ config ++ "/" ++ name ++ "/"
            · simp [hpath, hP, hC, hS, heq] at h
            · simp [hpath, hP, hC, hS, heq, Errorf] at h
              subst h
              exact Or.inr ⟨_, _,
                FailedComparison.profilePath profile path project config name hprof hpath hP
                  hC hS heq,
                includes_pair_swapped _ _ _⟩

theorem ValidatePrevASG_reports (sr : ServiceResources) (service : Service)
    (e : GoError) (h : ValidatePrevASG service sr.PrevASG = Go.ret (some e)) :
    ReportsFailure sr service e := by
  cases hprev : sr.PrevASG with
  | none =>
    rw [hprev] at h
    simp [ValidatePrevASG] at h
  | some prev =>
    rw [hprev] at h
    unfold ValidatePrevASG at h
    simp only [Go.pure_eq, Errorf] at h
    cases h1 : aws.HasProjectName prev service.ProjectName
    · simp [h1] at h
      subst h
      exact Or.inr ⟨_, _, FailedComparison.prevIdentity prev _ _ _ hprev
        (IdentityMismatch.projectName (projectName_differs prev service.ProjectName h1)),
        includes_pair _ _ _⟩
    · cases h2 : aws.HasConfigName prev service.ConfigName
      · simp [h1, h2] at h
        subst h
        exact Or.inr ⟨_, _, FailedComparison.prevIdentity prev _ _ _ hprev
          (IdentityMismatch.configName (configName_differs prev service.ConfigName h2)),
          includes_pair _ _ _⟩
      · cases h3 : aws.HasServiceName prev service.Name
        · simp [h1, h2, h3] at h
          subst h
          exact Or.inr ⟨_, _, FailedComparison.prevIdentity prev _ _ _ hprev
            (IdentityMismatch.serviceName (serviceName_differs prev service.Name h3)),
            includes_pair _ _ _⟩
        · cases h4 : prev.ReleaseIDTag with
          | none =>
            simp [h1, h2, h3, aws.ReleaseIDer.ReleaseID, h4] at h
            subst h
            exact Or.inl (AbsenceReport.prevRelease prev hprev h4)
          | some prevID =>
            cases h5 : service.ReleaseID with
            | none => simp [h1, h2, h3, aws.ReleaseIDer.ReleaseID, h4, h5] at h
            | some id =>
              by_cases heq : prevID = id
              · subst heq
                simp [h1, h2, h3, aws.ReleaseIDer.ReleaseID, h4, h5] at h
                subst h
                exact Or.inr ⟨_, _, FailedComparison.prevRelease prev prevID hprev h4 h5,
                  includes_pair _ _ _⟩
              · simp [h1, h2, h3, aws.ReleaseIDer.ReleaseID, h4, h5, heq] at h

theorem ValidateSecurityGroup_reports (sr : ServiceResources) (service : Service)
    (r : Option sg.SecurityGroup) (hr : r ∈ sr.SecurityGroups) (e : GoError)
    (h : ValidateSecurityGroup service r = Go.ret (some e)) : ReportsFailure sr service e := by
  cases r with
  | none =>
    simp only [ValidateSecurityGroup, Go.pure_eq, Errorf, Go.ret.injEq, Option.some.injEq] at h
    subst h
    exact Or.inl (AbsenceReport.securityGroup hr)
  | some g =>
    unfold ValidateSecurityGroup at h
    simp only [Go.pure_eq, Errorf] at h
    cases h1 : aws.HasProjectName g service.ProjectName
    · simp [h1] at h
      subst h
      exact Or.inr ⟨_, _, FailedComparison.securityGroupIdentity g _ _ _ hr
        (IdentityMismatch.projectName (projectName_differs g service.ProjectName h1)),
        includes_pair _ _ _⟩
    · cases h2 : aws.HasConfigName g service.ConfigName
      · simp [h1, h2] at h
        subst h
        exact Or.inr ⟨_, _, FailedComparison.securityGroupIdentity g _ _ _ hr
          (IdentityMismatch.configName (configName_differs g service.ConfigName h2)),
          includes_pair _ _ _⟩
      · cases h3 : aws.HasServiceName g service.Name
        · simp [h1, h2, h3] at h
          subst h
          exact Or.inr ⟨_, _, FailedComparison.securityGroupIdentity g _ _ _ hr
            (IdentityMismatch.serviceName (serviceName_differs g service.Name h3)),
            includes_pair _ _ _⟩
        · simp [h1, h2, h3] at h

theorem ValidateELB_reports (sr : ServiceResources) (service : Service)
    (r : Option elb.LoadBalancer) (hr : r ∈ sr.ELBs) (e : GoError)
    (h : ValidateELB service r = Go.ret (some e)) : ReportsFailure sr service e := by
  cases r with
  | none =>
    simp only [ValidateELB, Go.pure_eq, Errorf, Go.ret.injEq, Option.some.injEq] at h
    subst h
    exact Or.inl (AbsenceReport.loadBalancer hr)
  | some g =>
    unfold ValidateELB at h
    simp only [Go.pure_eq, Errorf] at h
    cases h1 : aws.HasProjectName g service.ProjectName
    · simp [h1] at h
      subst h
      exact Or.inr ⟨_, _, FailedComparison.loadBalancerIdentity g _ _ _ hr
        (IdentityMismatch.projectName (projectName_differs g service.ProjectName h1)),
        includes_pair _ _ _⟩
    · cases h2 : aws.HasConfigName g service.ConfigName
      · simp [h1, h2] at h
        subst h
        exact Or.inr ⟨_, _, FailedComparison.loadBalancerIdentity g _ _ _ hr
          (IdentityMismatch.configName (configName_differs g service.ConfigName h2)),
          includes_pair _ _ _⟩
      · cases h3 : aws.HasServiceName g service.Name
        · simp [h1, h2, h3] at h
          subst h
          exact Or.inr ⟨_, _, FailedComparison.loadBalancerIdentity g _ _ _ hr
            (IdentityMismatch.serviceName (serviceName_differs g service.Name h3)),
            includes_pair _ _ _⟩
        · simp [h1, h2, h3] at h

theorem ValidateTargetGroup_reports (sr : ServiceResources) (service : Service)
    (r : Option alb.TargetGroup) (hr : r ∈ sr.TargetGroups) (e : GoError)
    (h : ValidateTargetGroup service r = Go.ret (some e)) : ReportsFailure sr service e := by
  cases r with
  | none =>
    simp only [ValidateTargetGroup, Go.pure_eq, Errorf, Go.ret.injEq, Option.some.injEq] at h
    subst h
    exact Or.inl (AbsenceReport.targetGroup hr)
  | some g =>
    unfold ValidateTargetGroup at h
    simp only [Go.pure_eq, Errorf] at h
    cases h1 : aws.HasProjectName g service.ProjectName
    · simp [h1] at h
      subst h
      exact Or.inr ⟨_, _, FailedComparison.targetGroupIdentity g _ _ _ hr
        (IdentityMismatch.projectName (projectName_differs g service.ProjectName h1)),
        includes_pair _ _ _⟩
    · cases h2 : aws.HasConfigName g service.ConfigName
      · simp [h1, h2] at h
        subst h
        exact Or.inr ⟨_, _, FailedComparison.targetGroupIdentity g _ _ _ hr
          (IdentityMismatch.configName (configName_differs g service.ConfigName h2)),
          includes_pair _ _ _⟩
      · cases h3 : aws.HasServiceName g service.Name
        · simp [h1, h2, h3] at h
          subst h
          exact Or.inr ⟨_, _, FailedComparison.targetGroupIdentity g _ _ _ hr
            (IdentityMismatch.serviceName (serviceName_differs g service.Name h3)),
            includes_pair _ _ _⟩
        · simp [h1, h2, h3] at h

theorem check_of_Validate_error (sr : ServiceResources) (service : Service) (e : GoError)
    (h : sr.Validate service = Go.ret (some e)) :
    Go.ret (some e) ∈ validationChecks sr service := by
  rw [Validate_eq_foldr, foldr_orReturn_eq_some] at h
  obtain ⟨passed, later, hchecks, _⟩ := h
  rw [hchecks]
  simp

/-- C18, as the spec states it, fails: the errors for an absent security group
and for a previous scaling group without ReleaseID have no operand at all, so
their messages include neither an actual nor an expected value. -/
theorem validation_error_without_values :
    ValidateSecurityGroup svcFull none =
      Go.ret (some { format := "SecurityGroup is nil", args := [] }) ∧
    ValidatePrevASG svcBare (some asgNoRelease) =
      Go.ret (some { format := "Previous ASG ReleaseID nil", args := [] }) ∧
    ∀ (format : String) (expected actual : FmtArg),
      ¬ Includes { format := format, args := [] } expected actual := by
  refine ⟨by decide, by decide, ?_⟩
  intro format expected actual h
  rcases h with h | h <;> simp at h

/-- C18, amended: every error that Validate returns, and every error that one
of its validators returns on the bundle, is either the report of an absence
found on the bundle (an absent resource, path, ReleaseID or convention tag),
or the report of a comparison that failed on the bundle, and then its message
includes both the expected and the actual value of that very comparison: for
a count check the declared names and the identifiers of the discovered
resources, for a tag, a path or a ReleaseID the required and the found
value. -/
theorem validation_errors_report_failure (sr : ServiceResources) (service : Service)
    (e : GoError)
    (h : sr.Validate service = Go.ret (some e) ∨
      Go.ret (some e) ∈ validationChecks sr service) :
    ReportsFailure sr service e := by
  have hc : Go.ret (some e) ∈ validationChecks sr service := by
    rcases h with h | h
    · exact check_of_Validate_error sr service e h
    · exact h
  simp only [validationChecks, List.mem_append, List.mem_cons, List.mem_map,
    List.mem_singleton, List.not_mem_nil, or_false] at hc
  rcases hc with ((((h1 | h1 | h1 | h1) | ⟨r, hr, h1⟩) | ⟨r, hr, h1⟩) | ⟨r, hr, h1⟩) |
    ⟨r, hr, h1⟩
  · exact validateAttributes_reports sr service e h1.symm
  · exact ValidateImage_reports sr service e h1.symm
  · exact ValidateIAMProfile_reports sr service e h1.symm
  · exact ValidatePrevASG_reports sr service e h1.symm
  · exact ValidateSecurityGroup_reports sr service r hr e h1
  · exact ValidateELB_reports sr service r hr e h1
  · exact ValidateTargetGroup_reports sr service r hr e h1
  · exact ValidateSubnet_reports sr service r hr e h1

/-- C18, amended, at a bundle that holds the security group of another
project, whose error names the project required and the project found; and at
a bundle with one absent security group against a service declaring none,
whose error lists the declared names and the discovered identifiers, both
empty. -/
theorem validation_errors_report_failure_witness :
    ReportsFailure bundleWrongGroup svcFull
      { format := "Security Group incorrect ProjectName requires %q has %q",
        args := [FmtArg.strs (some "project"), FmtArg.strs (some "other")] } ∧
    ReportsFailure bundleNilGroup svcBare
      { format := "Security Group Not Found actual %v expected %v",
        args := [FmtArg.strSlice [], FmtArg.strSlice []] } :=
  ⟨validation_errors_report_failure bundleWrongGroup svcFull _ (Or.inl (by decide)),
   validation_errors_report_failure bundleNilGroup svcBare _ (Or.inl (by decide))⟩

end models

/-! ## Health request -/

namespace alb

theorem createDescribeTargetHealthInput_loop_eq (instances : List String) :
    ∀ awsInstances : List (Option elbv2.TargetDescription),
      createDescribeTargetHealthInput.loop instances awsInstances =
        awsInstances ++ instances.map (fun id => some { Id := some id }) := by
  induction instances with
  | nil => intro awsInstances; simp [createDescribeTargetHealthInput.loop]
  | cons id rest ih =>
    intro awsInstances
    simp [createDescribeTargetHealthInput.loop, ih]

/-- C23: the request createDescribeTargetHealthInput builds carries the given
identifier, and its targets are the instance ids, one target per id and in the
order of the list: as many targets as ids, the i-th target's Id being the
i-th id; no instance gives no target. -/
theorem createDescribeTargetHealthInput_targets (arn : Option String)
    (instances : List String) :
    (createDescribeTargetHealthInput arn instances).TargetGroupArn = arn ∧
    (createDescribeTargetHealthInput arn instances).Targets.length = instances.length ∧
    (∀ (i : Nat) (id : String), instances[i]? = some id →
      (createDescribeTargetHealthInput arn instances).Targets[i]? =
        some (some { Id := some id })) ∧
    (createDescribeTargetHealthInput arn []).Targets = [] := by
  have htargets : (createDescribeTargetHealthInput arn instances).Targets =
      instances.map (fun id => some { Id := some id }) := by
    simp [createDescribeTargetHealthInput, createDescribeTargetHealthInput_loop_eq]
  refine ⟨rfl, by simp [htargets], ?_, rfl⟩
  intro i id hi
  simp [htargets, hi]

/-! ## Tags of a target group -/

/-- C25: when the provider answers the describe-tags call without error and
with exactly one description whose ResourceArn differs from the requested
identifier, findTagsByName returns the not-found error; and findTagsByName
returns tags without error exactly when the provider answered without error
and with exactly one description whose ResourceArn is the requested
identifier, the tags being those of that description, as they are. -/
theorem findTagsByName_one_description {σ : Type} (alb : aws.ALBAPI σ)
    (targetGroupARN : Option String) (s s1 : σ) :
    (∀ (td : elbv2.TagDescription) (held wanted : String),
      alb.DescribeTags { ResourceArns := [targetGroupARN] } s =
        ((some { TagDescriptions := [some td] }, none), s1) →
      td.ResourceArn = some held → targetGroupARN = some wanted → held ≠ wanted →
      findTagsByName alb targetGroupARN s =
        Go.ret (([], Errorf "TargetGroup Not Found" []), s1)) ∧
    (∀ tags : List (Option elbv2.Tag),
      findTagsByName alb targetGroupARN s = Go.ret ((tags, none), s1) ↔
        ∃ (out : elbv2.DescribeTagsOutput) (td : elbv2.TagDescription),
          alb.DescribeTags { ResourceArns := [targetGroupARN] } s = ((some out, none), s1) ∧
          out.TagDescriptions = [some td] ∧ td.ResourceArn ≠ none ∧
          td.ResourceArn = targetGroupARN ∧ tags = td.Tags) := by
  constructor
  · intro td held wanted hcall hheld hwanted hne
    subst hwanted
    simp [findTagsByName, hcall, hheld, hne]
  · intro tags
    constructor
    · intro h
      unfold findTagsByName at h
      rcases hcall : alb.DescribeTags { ResourceArns := [targetGroupARN] } s with
        ⟨⟨out, err⟩, s2⟩
      rw [hcall] at h
      cases err with
      | some e => simp at h
      | none =>
        cases out with
        | none => simp at h
        | some out =>
          rcases hout : out.TagDescriptions with _ | ⟨first, _ | ⟨second, more⟩⟩
          · simp [hout, Errorf] at h
          · cases first with
            | none => simp [hout] at h
            | some td =>
              cases harn : td.ResourceArn with
              | none => simp [hout, harn] at h
              | some held =>
                cases hwanted : targetGroupARN with
                | none =>
                  rw [hwanted] at h
                  simp [hout, harn] at h
                | some wanted =>
                  rw [hwanted] at h
                  by_cases heq : held = wanted
                  · simp [hout, harn, heq] at h
                    obtain ⟨htags, hs⟩ := h
                    subst hs
                    exact ⟨out, td, rfl, hout, by simp [harn], by rw [harn, heq],
                      htags.symm⟩
                  · simp [hout, harn, heq, Errorf] at h
          · simp [hout, Errorf] at h
    · rintro ⟨out, td, hcall, hout, hsome, harn, rfl⟩
      cases hheld : td.ResourceArn with
      | none => exact absurd hheld hsome
      | some held =>
        rw [hheld] at harn
        subst harn
        simp [findTagsByName, hcall, hout, hheld]

/-- C25, at a provider that holds `tg1` under `arn:tg1`: the tags of `tg1`
come back as they are, and a request for `arn:other` answered with the
description of `arn:tg1` fails. -/
theorem findTagsByName_one_description_witness :
    findTagsByName providerTwo (some "arn:tg1") [] =
      Go.ret ((tagsSvc1.map some, none),
        [Call.describeTags { ResourceArns := [some "arn:tg1"] }]) ∧
    findTagsByName
        (recordingProvider (groupsOf []) (fun _ => tagsOf [(awsTg1, tagsSvc1)]
          { ResourceArns := [some "arn:tg1"] }) healthOf)
        (some "arn:other") [] =
      Go.ret (([], Errorf "TargetGroup Not Found" []),
        [Call.describeTags { ResourceArns := [some "arn:other"] }]) :=
  ⟨((findTagsByName_one_description providerTwo (some "arn:tg1") []
      [Call.describeTags { ResourceArns := [some "arn:tg1"] }]).2 (tagsSvc1.map some)).mpr
      ⟨{ TagDescriptions := [some { ResourceArn := some "arn:tg1", Tags := tagsSvc1.map some }] },
       { ResourceArn := some "arn:tg1", Tags := tagsSvc1.map some },
       by decide, rfl, by decide, rfl, rfl⟩,
   (findTagsByName_one_description
      (recordingProvider (groupsOf []) (fun _ => tagsOf [(awsTg1, tagsSvc1)]
        { ResourceArns := [some "arn:tg1"] }) healthOf)
      (some "arn:other") []
      [Call.describeTags { ResourceArns := [some "arn:other"] }]).1
      { ResourceArn := some "arn:tg1", Tags := tagsSvc1.map some } "arn:tg1" "arn:other"
      (by decide) rfl rfl (by decide)⟩

end alb

/-! ## Identity predicates -/

namespace aws

theorem HasReleaseID_iff {ρ : Type} [ReleaseIDer ρ] (r : ρ) (want : Option String) :
    HasReleaseID r want = true ↔
      ∃ value : String, ReleaseIDer.ReleaseID r = some value ∧ want = some value := by
  unfold HasReleaseID
  cases ReleaseIDer.ReleaseID r <;> cases want <;> simp [eq_comm]

theorem HasProjectName_iff_exists {ρ : Type} [ProjectNamer ρ] (r : ρ) (want : Option String) :
    HasProjectName r want = true ↔
      ∃ value : String, ProjectNamer.ProjectName r = some value ∧ want = some value := by
  unfold HasProjectName
  cases ProjectNamer.ProjectName r <;> cases want <;> simp [eq_comm]

theorem HasConfigName_iff_exists {ρ : Type} [ConfigNamer ρ] (r : ρ) (want : Option String) :
    HasConfigName r want = true ↔
      ∃ value : String, ConfigNamer.ConfigName r = some value ∧ want = some value := by
  unfold HasConfigName
  cases ConfigNamer.ConfigName r <;> cases want <;> simp [eq_comm]

theorem HasServiceName_iff_exists {ρ : Type} [ServiceNamer ρ] (r : ρ) (want : Option String) :
    HasServiceName r want = true ↔
      ∃ value : String, ServiceNamer.ServiceName r = some value ∧ want = some value := by
  unfold HasServiceName
  cases ServiceNamer.ServiceName r <;> cases want <;> simp [eq_comm]

/-- C24: for every resource kind that has the accessor, each of
HasProjectName, HasConfigName, HasServiceName and HasReleaseID returns true if
and only if the accessor's value and the compared value are both present and
are the same string; so it returns false as soon as one of the two is absent,
also when both are. -/
theorem identity_predicates_rule :
    (∀ (ρ : Type) [ProjectNamer ρ] (r : ρ) (want : Option String),
      (HasProjectName r want = true ↔
        ∃ value : String, ProjectNamer.ProjectName r = some value ∧ want = some value) ∧
      (ProjectNamer.ProjectName r = none ∨ want = none → HasProjectName r want = false)) ∧
    (∀ (ρ : Type) [ConfigNamer ρ] (r : ρ) (want : Option String),
      (HasConfigName r want = true ↔
        ∃ value : String, ConfigNamer.ConfigName r = some value ∧ want = some value) ∧
      (ConfigNamer.ConfigName r = none ∨ want = none → HasConfigName r want = false)) ∧
    (∀ (ρ : Type) [ServiceNamer ρ] (r : ρ) (want : Option String),
      (HasServiceName r want = true ↔
        ∃ value : String, ServiceNamer.ServiceName r = some value ∧ want = some value) ∧
      (ServiceNamer.ServiceName r = none ∨ want = none → HasServiceName r want = false)) ∧
    (∀ (ρ : Type) [ReleaseIDer ρ] (r : ρ) (want : Option String),
      (HasReleaseID r want = true ↔
        ∃ value : String, ReleaseIDer.ReleaseID r = some value ∧ want = some value) ∧
      (ReleaseIDer.ReleaseID r = none ∨ want = none → HasReleaseID r want = false)) := by
  refine ⟨fun ρ _ r want => ⟨HasProjectName_iff_exists r want, fun h => ?_⟩,
    fun ρ _ r want => ⟨HasConfigName_iff_exists r want, fun h => ?_⟩,
    fun ρ _ r want => ⟨HasServiceName_iff_exists r want, fun h => ?_⟩,
    fun ρ _ r want => ⟨HasReleaseID_iff r want, fun h => ?_⟩⟩
  · cases hb : HasProjectName r want with
    | false => rfl
    | true =>
      obtain ⟨value, h1, h2⟩ := (HasProjectName_iff_exists r want).mp hb
      rcases h with h | h
      · rw [h1] at h; cases h
      · rw [h2] at h; cases h
  · cases hb : HasConfigName r want with
    | false => rfl
    | true =>
      obtain ⟨value, h1, h2⟩ := (HasConfigName_iff_exists r want).mp hb
      rcases h with h | h
      · rw [h1] at h; cases h
      · rw [h2] at h; cases h
  · cases hb : HasServiceName r want with
    | false => rfl
    | true =>
      obtain ⟨value, h1, h2⟩ := (HasServiceName_iff_exists r want).mp hb
      rcases h with h | h
      · rw [h1] at h; cases h
      · rw [h2] at h; cases h
  · cases hb : HasReleaseID r want with
    | false => rfl
    | true =>
      obtain ⟨value, h1, h2⟩ := (HasReleaseID_iff r want).mp hb
      rcases h with h | h
      · rw [h1] at h; cases h
      · rw [h2] at h; cases h

/-- C24, at a scaling group and at a target group of `svc1`: equal present
values give true, an absent side gives false, for both kinds. -/
theorem identity_predicates_rule_witness :
    HasReleaseID models.asgOld (some "old") = true ∧
    HasReleaseID models.asgNoRelease none = false ∧
    HasProjectName models.tgOk (some "project") = true ∧
    HasProjectName models.tgOk none = false :=
  ⟨((identity_predicates_rule.2.2.2 asg.ASG models.asgOld (some "old")).1).mpr
      ⟨"old", rfl, rfl⟩,
   (identity_predicates_rule.2.2.2 asg.ASG models.asgNoRelease none).2 (Or.inl rfl),
   ((identity_predicates_rule.1 alb.TargetGroup models.tgOk (some "project")).1).mpr
      ⟨"project", rfl, rfl⟩,
   (identity_predicates_rule.1 alb.TargetGroup models.tgOk none).2 (Or.inr rfl)⟩

end aws

/-! ## Resource names -/

namespace models

theorem collectNames_eq {ρ : Type} (ident : ρ → Option String) (rs : List (Option ρ)) :
    collectNames ident rs =
      ((rs.filterMap id).map ident).filter (fun i => decide (i ≠ none ∧ i ≠ some "")) := by
  induction rs with
  | nil => rfl
  | cons r rest ih =>
    cases r with
    | none => simpa [collectNames] using ih
    | some x =>
      cases hx : ident x with
      | none => simp [collectNames, is.EmptyStr, hx, ih]
      | some v =>
        by_cases hv : v = ""
        · simp [collectNames, is.EmptyStr, hx, hv, ih]
        · simp [collectNames, is.EmptyStr, hx, hv, ih]

theorem collectNames_length_le {ρ : Type} (ident : ρ → Option String) (rs : List (Option ρ)) :
    (collectNames ident rs).length ≤ rs.length := by
  rw [collectNames_eq]
  calc _ ≤ ((rs.filterMap id).map ident).length := List.length_filter_le _ _
    _ = (rs.filterMap id).length := List.length_map _ _
    _ ≤ rs.length := List.length_filterMap_le _ _

theorem collectNames_present {ρ : Type} (ident : ρ → Option String) (rs : List (Option ρ))
    (i : Option String) (hi : i ∈ collectNames ident rs) : i ≠ none ∧ i ≠ some "" := by
  rw [collectNames_eq, List.mem_filter] at hi
  simpa using hi.2

/-- C26: each list of ToServiceResourceNames is the list of the identifiers of
the bundle's resources of that kind, absent resources left out and absent or
empty identifiers left out, in the order of the bundle; so it is no longer
than the bundle's list and holds no absent or empty identifier. The names of
the image, the profile and the previous scaling group are absent exactly when
the resource is absent or has no identifier. -/
theorem ToServiceResourceNames_lists (sr : ServiceResources) :
    (sr.ToServiceResourceNames.SecurityGroups =
        ((sr.SecurityGroups.filterMap id).map (fun g => g.GroupID)).filter
          (fun i => decide (i ≠ none ∧ i ≠ some "")) ∧
      sr.ToServiceResourceNames.ELBs =
        ((sr.ELBs.filterMap id).map (fun l => l.LoadBalancerName)).filter
          (fun i => decide (i ≠ none ∧ i ≠ some "")) ∧
      sr.ToServiceResourceNames.TargetGroups =
        ((sr.TargetGroups.filterMap id).map (fun t => t.TargetGroupArn)).filter
          (fun i => decide (i ≠ none ∧ i ≠ some "")) ∧
      sr.ToServiceResourceNames.Subnets =
        ((sr.Subnets.filterMap id).map (fun n => n.SubnetID)).filter
          (fun i => decide (i ≠ none ∧ i ≠ some ""))) ∧
    (sr.ToServiceResourceNames.SecurityGroups.length ≤ sr.SecurityGroups.length ∧
      sr.ToServiceResourceNames.ELBs.length ≤ sr.ELBs.length ∧
      sr.ToServiceResourceNames.TargetGroups.length ≤ sr.TargetGroups.length ∧
      sr.ToServiceResourceNames.Subnets.length ≤ sr.Subnets.length) ∧
    (∀ i : Option String,
      i ∈ sr.ToServiceResourceNames.SecurityGroups ∨ i ∈ sr.ToServiceResourceNames.ELBs ∨
        i ∈ sr.ToServiceResourceNames.TargetGroups ∨ i ∈ sr.ToServiceResourceNames.Subnets →
      i ≠ none ∧ i ≠ some "") ∧
    (sr.ToServiceResourceNames.Image = none ↔
      sr.Image = none ∨ ∃ image : ami.Image, sr.Image = some image ∧ image.ImageID = none) ∧
    (sr.ToServiceResourceNames.Profile = none ↔
      sr.Profile = none ∨ ∃ profile : iam.Profile, sr.Profile = some profile ∧
        profile.Arn = none) ∧
    (sr.ToServiceResourceNames.PrevASG = none ↔
      sr.PrevASG = none ∨ ∃ prev : asg.ASG, sr.PrevASG = some prev ∧
        prev.AutoScalingGroupName = none) := by
  refine ⟨⟨collectNames_eq _ _, collectNames_eq _ _, collectNames_eq _ _, collectNames_eq _ _⟩,
    ⟨collectNames_length_le _ _, collectNames_length_le _ _, collectNames_length_le _ _,
      collectNames_length_le _ _⟩, ?_, ?_, ?_, ?_⟩
  · intro i hi
    rcases hi with hi | hi | hi | hi <;> exact collectNames_present _ _ i hi
  · cases h : sr.Image <;> simp [ServiceResources.ToServiceResourceNames, h]
  · cases h : sr.Profile <;> simp [ServiceResources.ToServiceResourceNames, h]
  · cases h : sr.PrevASG <;> simp [ServiceResources.ToServiceResourceNames, h]

/-! ## Totality -/

theorem foldr_orReturn_ne_panic (cs : List (Go error)) (h : ∀ c ∈ cs, c ≠ Go.panic) :
    cs.foldr orReturn (Go.ret none) ≠ Go.panic := by
  induction cs with
  | nil => simp
  | cons c cs ih =>
    have hc := h c (List.mem_cons_self _ _)
    have hcs := ih (fun d hd => h d (List.mem_cons_of_mem _ hd))
    rcases c with ⟨_ | e⟩ | _
    · simpa [orReturn] using hcs
    · simp [orReturn]
    · exact absurd rfl hc

theorem validateAttributes_ne_panic (sr : ServiceResources) (service : Service) :
    sr.validateAttributes service ≠ Go.panic := by
  unfold ServiceResources.validateAttributes
  simp only [Go.pure_eq]
  split_ifs <;> simp

theorem ValidateImage_ne_panic (service : Service) (im : Option ami.Image)
    (hid : ∀ image : ami.Image, im = some image → image.ImageID ≠ none) :
    ValidateImage service im ≠ Go.panic := by
  cases im with
  | none => simp [ValidateImage]
  | some image =>
    have := hid image rfl
    unfold ValidateImage
    cases hident : image.ImageID with
    | none => exact absurd hident this
    | some id =>
      cases htag : image.DeployWithTag with
      | none => simp [htag, hident]
      | some tag => by_cases heq : tag = "step-asg-deployer" <;> simp [htag, hident, heq]

theorem ValidateSubnet_ne_panic (service : Service) (sn : Option subnet.Subnet)
    (hid : ∀ net : subnet.Subnet, sn = some net → net.SubnetID ≠ none) :
    ValidateSubnet service sn ≠ Go.panic := by
  cases sn with
  | none => simp [ValidateSubnet]
  | some net =>
    have := hid net rfl
    unfold ValidateSubnet
    cases hident : net.SubnetID with
    | none => exact absurd hident this
    | some id =>
      cases htag : net.DeployWithTag with
      | none => simp [htag, hident]
      | some tag => by_cases heq : tag = "step-asg-deployer" <;> simp [htag, hident, heq]

theorem ValidateIAMProfile_ne_panic (service : Service) (profile : Option iam.Profile)
    (hP : service.ProjectName ≠ none) (hC : service.ConfigName ≠ none)
    (hN : service.Name ≠ none) : ValidateIAMProfile service profile ≠ Go.panic := by
  cases profile with
  | none => simp [ValidateIAMProfile]
  | some profile =>
    unfold ValidateIAMProfile
    cases hpath : profile.Path with
    | none => simp [hpath]
    | some path =>
      cases h1 : service.ProjectName with
      | none => exact absurd h1 hP
      | some project =>
        cases h2 : service.ConfigName with
        | none => exact absurd h2 hC
        | some config =>
          cases h3 : service.Name with
          | none => exact absurd h3 hN
          | some name =>
            by_cases heq : path = "/" ++ project ++ "/" ++ config ++ "/" ++ name ++ "/"
            · simp [hpath, h1, h2, h3, heq]
            · simp [hpath, h1, h2, h3, heq]

theorem ValidatePrevASG_ne_panic (service : Service) (as : Option asg.ASG)
    (hR : service.ReleaseID ≠ none) : ValidatePrevASG service as ≠ Go.panic := by
  cases as with
  | none => simp [ValidatePrevASG]
  | some prev =>
    unfold ValidatePrevASG
    simp only [Go.pure_eq]
    cases h1 : aws.HasProjectName prev service.ProjectName
    · simp
    · cases h2 : aws.HasConfigName prev service.ConfigName
      · simp
      · cases h3 : aws.HasServiceName prev service.Name
        · simp
        · cases h4 : prev.ReleaseIDTag with
          | none => simp [aws.ReleaseIDer.ReleaseID, h4]
          | some prevID =>
            cases h5 : service.ReleaseID with
            | none => exact absurd h5 hR
            | some id =>
              by_cases heq : prevID = id <;> simp [aws.ReleaseIDer.ReleaseID, h4, heq]

theorem ValidateSecurityGroup_ne_panic (service : Service) (sc : Option sg.SecurityGroup) :
    ValidateSecurityGroup service sc ≠ Go.panic := by
  cases sc with
  | none => simp [ValidateSecurityGroup]
  | some g =>
    rcases ValidateSecurityGroup_cases service g with ⟨h, _⟩ | ⟨⟨e, h⟩, _⟩ <;> simp [h]

theorem ValidateELB_ne_panic (service : Service) (lb : Option elb.LoadBalancer) :
    ValidateELB service lb ≠ Go.panic := by
  cases lb with
  | none => simp [ValidateELB]
  | some g =>
    rcases ValidateELB_cases service g with ⟨h, _⟩ | ⟨⟨e, h⟩, _⟩ <;> simp [h]

theorem ValidateTargetGroup_ne_panic (service : Service) (tg : Option alb.TargetGroup) :
    ValidateTargetGroup service tg ≠ Go.panic := by
  cases tg with
  | none => simp [ValidateTargetGroup]
  | some g =>
    rcases ValidateTargetGroup_cases service g with ⟨h, _⟩ | ⟨⟨e, h⟩, _⟩ <;> simp [h]

/-- C27: when the service's project name, config name, service name and
release id are present and every present image and subnet of the bundle has
an identifier, Validate returns, either no error or an error, and does not
dereference a nil pointer; this for every bundle, whatever is absent in
it. -/
theorem Validate_total (sr : ServiceResources) (service : Service)
    (hP : service.ProjectName ≠ none) (hC : service.ConfigName ≠ none)
    (hN : service.Name ≠ none) (hR : service.ReleaseID ≠ none)
    (himage : ∀ image : ami.Image, sr.Image = some image → image.ImageID ≠ none)
    (hsubnet : ∀ net : subnet.Subnet, some net ∈ sr.Subnets → net.SubnetID ≠ none) :
    sr.Validate service = Go.ret none ∨
      ∃ e : GoError, sr.Validate service = Go.ret (some e) := by
  have hne : sr.Validate service ≠ Go.panic := by
    rw [Validate_eq_foldr]
    apply foldr_orReturn_ne_panic
    intro c hc
    simp only [validationChecks, List.mem_append, List.mem_cons, List.mem_map,
      List.mem_singleton, List.not_mem_nil, or_false] at hc
    rcases hc with ((((rfl | rfl | rfl | rfl) | ⟨r, hr, rfl⟩) | ⟨r, hr, rfl⟩) |
      ⟨r, hr, rfl⟩) | ⟨r, hr, rfl⟩
    · exact validateAttributes_ne_panic sr service
    · exact ValidateImage_ne_panic service sr.Image himage
    · exact ValidateIAMProfile_ne_panic service sr.Profile hP hC hN
    · exact ValidatePrevASG_ne_panic service sr.PrevASG hR
    · exact ValidateSecurityGroup_ne_panic service r
    · exact ValidateELB_ne_panic service r
    · exact ValidateTargetGroup_ne_panic service r
    · exact ValidateSubnet_ne_panic service r
        (fun net hnet => hsubnet net (by rw [← hnet]; exact hr))
  rcases hv : sr.Validate service with ⟨_ | e⟩ | _
  · exact Or.inl rfl
  · exact Or.inr ⟨e, rfl⟩
  · exact absurd hv hne

/-- C27, at a bundle with an absent element and an untagged resource in every
list, an image without tag, a profile without path and a previous scaling
group without ReleaseID: Validate returns, and what it returns is the error
of the image check. -/
theorem Validate_total_witness :
    (bundleRagged.Validate svcTwo = Go.ret none ∨
      ∃ e : GoError, bundleRagged.Validate svcTwo = Go.ret (some e)) ∧
    bundleRagged.Validate svcTwo =
      Go.ret (some { format := "Image %v DeployWith Tag nil", args := [FmtArg.str "ami-1"] }) :=
  ⟨Validate_total bundleRagged svcTwo (by decide) (by decide) (by decide) (by decide)
    (fun image h => by
      simp only [bundleRagged, Option.some.injEq] at h
      subst h
      decide)
    (fun net h => by
      simp only [bundleRagged, List.mem_cons, Option.some.injEq, List.mem_singleton,
        List.not_mem_nil, or_false] at h
      rcases h with h | h
      · cases h
      · subst h
        decide),
   by decide⟩

end models

/-! ## Previous release per service -/

namespace asg

theorem serviceMap_loop_distinct (rest : List ASG) :
    ∀ asgMap : List (String × ASG),
      (∀ g ∈ rest, g.ServiceNameTag ≠ none) →
      (rest.map (fun g => g.ServiceNameTag)).Nodup →
      (∀ g ∈ rest, ∀ entry ∈ asgMap, g.ServiceNameTag ≠ some entry.1) →
      ∃ added : List (String × ASG),
        ForProjectConfigNotReleaseIDServiceMap.loop rest asgMap =
          Go.ret (some (asgMap ++ added), none) ∧
        added.map Prod.snd = rest ∧
        ∀ entry ∈ added, entry.2.ServiceNameTag = some entry.1 := by
  induction rest with
  | nil =>
    intro asgMap _ _ _
    exact ⟨[], by simp [ForProjectConfigNotReleaseIDServiceMap.loop], rfl, by simp⟩
  | cons g rest ih =>
    intro asgMap hnames hdistinct hfresh
    cases hname : g.ServiceNameTag with
    | none => exact absurd hname (hnames g (List.mem_cons_self _ _))
    | some n =>
      have hany : asgMap.any (fun entry => decide (entry.1 = n)) = false := by
        rw [Bool.eq_false_iff]
        intro h
        obtain ⟨entry, hentry, heq⟩ := List.any_eq_true.mp h
        have := hfresh g (List.mem_cons_self _ _) entry hentry
        rw [hname] at this
        exact this (by rw [of_decide_eq_true heq])
      rw [List.map_cons, List.nodup_cons, hname] at hdistinct
      obtain ⟨added, hrun, hsnd, hkeys⟩ := ih (asgMap ++ [(n, g)])
        (fun g1 hg1 => hnames g1 (List.mem_cons_of_mem _ hg1)) hdistinct.2
        (by
          intro g1 hg1 entry hentry heq
          rcases List.mem_append.mp hentry with hold | hnew
          · exact hfresh g1 (List.mem_cons_of_mem _ hg1) entry hold heq
          · simp only [List.mem_singleton] at hnew
            subst hnew
            exact hdistinct.1 (List.mem_map.mpr ⟨g1, hg1, heq⟩))
      refine ⟨(n, g) :: added, ?_, by simp [hsnd], ?_⟩
      · rw [ForProjectConfigNotReleaseIDServiceMap.loop]
        simp only [hname, Go.deref_some, Go.pure_bind_eq, hany]
        simpa using hrun
      · intro entry hentry
        rcases List.mem_cons.mp hentry with rfl | hin
        · exact hname
        · exact hkeys entry hin

theorem serviceMap_loop_duplicate (rest : List ASG) :
    ∀ asgMap : List (String × ASG),
      (∀ g ∈ rest, g.ServiceNameTag ≠ none) →
      (¬ (rest.map (fun g => g.ServiceNameTag)).Nodup ∨
        ∃ g ∈ rest, ∃ entry ∈ asgMap, g.ServiceNameTag = some entry.1) →
      ∃ e : GoError,
        ForProjectConfigNotReleaseIDServiceMap.loop rest asgMap = Go.ret (none, some e) := by
  induction rest with
  | nil =>
    intro asgMap _ h
    rcases h with h | ⟨g, hg, _⟩
    · exact absurd List.nodup_nil h
    · simp at hg
  | cons g rest ih =>
    intro asgMap hnames h
    cases hname : g.ServiceNameTag with
    | none => exact absurd hname (hnames g (List.mem_cons_self _ _))
    | some n =>
      rw [ForProjectConfigNotReleaseIDServiceMap.loop]
      simp only [hname, Go.deref_some, Go.pure_bind_eq]
      cases hany : asgMap.any (fun entry => decide (entry.1 = n)) with
      | true => exact ⟨_, by simp [Errorf]; rfl⟩
      | false =>
        simp only [Bool.false_eq_true, if_false]
        apply ih (asgMap ++ [(n, g)]) (fun g1 hg1 => hnames g1 (List.mem_cons_of_mem _ hg1))
        rcases h with h | ⟨g1, hg1, entry, hentry, heq⟩
        · rw [List.map_cons, List.nodup_cons, hname] at h
          by_cases hmem : some n ∈ rest.map (fun g => g.ServiceNameTag)
          · obtain ⟨g1, hg1, heq⟩ := List.mem_map.mp hmem
            exact Or.inr ⟨g1, hg1, (n, g), by simp, heq⟩
          · exact Or.inl (fun hnodup => h ⟨hmem, hnodup⟩)
        · rcases List.mem_cons.mp hg1 with rfl | hin
          · exfalso
            rw [hname] at heq
            have : asgMap.any (fun entry => decide (entry.1 = n)) = true :=
              List.any_eq_true.mpr ⟨entry, hentry, by simpa using (Option.some.inj heq).symm⟩
            rw [hany] at this
            cases this
          · exact Or.inr ⟨g1, hin, entry, List.mem_append_left _ hentry, heq⟩

/-- C22: let the remaining groups be the scaling groups of the project and
config that are not of the target release, each carrying a ServiceName. If two
of them share a ServiceName, ForProjectConfigNotReleaseIDServiceMap returns an
error and no map; if their ServiceNames are all different, it returns no
error and a map with exactly one entry for every remaining group, under the
group's ServiceName. -/
theorem serviceMap_one_previous_per_service (groups : List ASG)
    (projectName configName releaseID : Option String)
    (hnames : ∀ g ∈ ForProjectConfigNOTReleaseID groups projectName configName releaseID,
      g.ServiceNameTag ≠ none) :
    (¬ ((ForProjectConfigNOTReleaseID groups projectName configName releaseID).map
        (fun g => g.ServiceNameTag)).Nodup →
      ∃ e : GoError,
        ForProjectConfigNotReleaseIDServiceMap groups projectName configName releaseID =
          Go.ret (none, some e)) ∧
    (((ForProjectConfigNOTReleaseID groups projectName configName releaseID).map
        (fun g => g.ServiceNameTag)).Nodup →
      ∃ asgMap : List (String × ASG),
        ForProjectConfigNotReleaseIDServiceMap groups projectName configName releaseID =
          Go.ret (some asgMap, none) ∧
        asgMap.length =
          (ForProjectConfigNOTReleaseID groups projectName configName releaseID).length ∧
        asgMap.map Prod.snd =
          ForProjectConfigNOTReleaseID groups projectName configName releaseID ∧
        ∀ entry ∈ asgMap, entry.2.ServiceNameTag = some entry.1) := by
  constructor
  · intro hdup
    exact serviceMap_loop_duplicate _ [] hnames (Or.inl hdup)
  · intro hdistinct
    obtain ⟨added, hrun, hsnd, hkeys⟩ :=
      serviceMap_loop_distinct _ [] hnames hdistinct (by simp)
    refine ⟨added, by simpa [ForProjectConfigNotReleaseIDServiceMap] using hrun, ?_, hsnd,
      hkeys⟩
    rw [← hsnd, List.length_map]

/-- C22, at the scaling groups of the two tests: of the five groups only that
of `service3` remains and the map has this one entry; the two groups of
`service1` give an error. -/
theorem serviceMap_one_previous_per_service_witness :
    (∃ asgMap : List (String × ASG),
      ForProjectConfigNotReleaseIDServiceMap groupsOfTest (some "project") (some "config")
          (some "release") = Go.ret (some asgMap, none) ∧
      asgMap.length =
        (ForProjectConfigNOTReleaseID groupsOfTest (some "project") (some "config")
          (some "release")).length ∧
      asgMap.map Prod.snd =
        ForProjectConfigNOTReleaseID groupsOfTest (some "project") (some "config")
          (some "release") ∧
      ∀ entry ∈ asgMap, entry.2.ServiceNameTag = some entry.1) ∧
    (∃ e : GoError,
      ForProjectConfigNotReleaseIDServiceMap groupsOfErrorTest (some "project")
          (some "config") (some "not_release") = Go.ret (none, some e)) :=
  ⟨(serviceMap_one_previous_per_service groupsOfTest (some "project") (some "config")
      (some "release") (by decide)).2 (by decide),
   (serviceMap_one_previous_per_service groupsOfErrorTest (some "project") (some "config")
      (some "not_release") (by decide)).1 (by decide)⟩

end asg

end StepAsgDeployer
